import Mathlib

/-!
Verification of the rogger structured-logging library (Go) against its
specification.  The Go sources are shallowly embedded: Go maps become
association lists with unique keys (`Params`), Go `interface{}` values
become the inductive `Value`, `time.Time` becomes `Nat` (with `0` as the
zero value, matching `Time.IsZero`), and process-level effects (writing
to the sink, stderr diagnostics, `os.Exit`) are reified in the `Outcome`
structure.  Go standard-library behaviour that the claims do not depend
on (the `time.Time.Format` layout engine, `fmt.Sprint` of non-string
values, the stack walk of `runtime.Callers`) is abstracted as explicit
parameters or placeholder renderings, noted at each definition.
-/

namespace Rogger

/-- Value carried in a `Params` map (Go `interface{}`).  Function values
and pointers to functions are distinguished because `WithParams` rejects
them via `reflect.Kind` checks; other kinds are represented by strings,
integers and booleans. -/
inductive Value where
  | vStr (s : String)
  | vInt (n : Int)
  | vBool (b : Bool)
  | vFunc
  | vFuncPtr
deriving DecidableEq

/-- Reflection check in `Entry.WithParams` (src/unnamed/part_001): a value
whose `reflect.Kind` is `Func`, or `Ptr` with `Elem` of kind `Func`. -/
def isErrField : Value → Bool
  | .vFunc => true
  | .vFuncPtr => true
  | _ => false

/-- Go `map[string]interface{}` embedded as an association list; Go's
(unspecified) map iteration order is determinized as the list order. -/
abbrev Params := List (String × Value)

/-- Map lookup `m[k]` (first binding wins; with unique keys this is the
Go map lookup). -/
def getParam : Params → String → Option Value
  | [], _ => none
  | (k', v) :: rest, k => if k' = k then some v else getParam rest k

/-- Map update `m[k] = v`: replace the first binding of `k`, or append. -/
def setParam : Params → String → Value → Params
  | [], k, v => [(k, v)]
  | (k', v') :: rest, k, v =>
      if k' = k then (k, v) :: rest else (k', v') :: setParam rest k v

/-- Map deletion `delete(m, k)`. -/
def delParam : Params → String → Params
  | [], _ => []
  | (k', v) :: rest, k =>
      if k' = k then delParam rest k else (k', v) :: delParam rest k

/-- Invariant of every list representing a Go map: keys are distinct. -/
def nodupKeys (m : Params) : Prop := (m.map Prod.fst).Nodup

/-- Level is a Go `uint32`; only order and equality are used, so `Nat`
is a faithful carrier (src/rogger.go, src/constants.go). -/
abbrev Level := Nat

def TraceLevel : Level := 0
def DebugLevel : Level := 1
def InfoLevel : Level := 2
def WarnLevel : Level := 3
def ErrorLevel : Level := 4
def FatalLevel : Level := 5

/-- Key constants from src/constants.go. -/
def timeKey : String := "time"

def msgKey : String := "message"

def levelKey : String := "level"

def errKey : String := "error"

def funcKey : String := "func"

def fileKey : String := "file"

/-- The params-clash prefix constant `paramsPrefix = "params"`
(src/constants.go). -/
def paramsPref : String := "params"

/-- Go `time.RFC3339` layout literal (src/constants.go
`defaultTimestampFormat`). -/
def defaultTimestampFormat : String := "2006-01-02T15:04:05Z07:00"

/-- Method `Level.String` as defined in src/rogger.go lines 17-31: note
the switch has no `TraceLevel` case, so `TraceLevel` falls through to
`"unknown"`. -/
def levelString (l : Level) : String :=
  if l = DebugLevel then "debug"
  else if l = InfoLevel then "info"
  else if l = WarnLevel then "warn"
  else if l = ErrorLevel then "error"
  else if l = FatalLevel then "fatal"
  else "unknown"

/-- Method `Level.String` as defined in the alternate snapshot
src/unnamed/part_000 lines 15-31, which does carry the `TraceLevel`
case. -/
def levelStringAlt (l : Level) : String :=
  if l = TraceLevel then "trace"
  else if l = DebugLevel then "debug"
  else if l = InfoLevel then "info"
  else if l = WarnLevel then "warn"
  else if l = ErrorLevel then "error"
  else if l = FatalLevel then "fatal"
  else "unknown"

/-- Function `needsQuoting` (src/textformatter.go lines 111-124): true on
the empty string, and on any string containing a rune outside
letters/digits and `- . _ / @ ^ +`.  Go ranges over runes; `String.data`
ranges over the same scalar values. -/
def needsQuoting (text : String) : Bool :=
  if text.length = 0 then true
  else text.data.any (fun ch =>
    !(('a' ≤ ch && ch ≤ 'z') ||
      ('A' ≤ ch && ch ≤ 'Z') ||
      ('0' ≤ ch && ch ≤ '9') ||
      ch = '-' || ch = '.' || ch = '_' || ch = '/' || ch = '@' || ch = '^' || ch = '+'))

/-- Escape of one character inside a Go `%q` string literal.  The common
escapes are exact; escaping of other control and non-printable runes is
abstracted (no claim depends on those renderings). -/
def goEscapeChar (c : Char) : String :=
  if c = '"' then "\\\""
  else if c = '\\' then "\\\\"
  else if c = '\n' then "\\n"
  else if c = '\t' then "\\t"
  else if c = '\r' then "\\r"
  else String.singleton c

/-- Go `fmt.Sprintf("%q", s)`: the escaped string surrounded by double
quotes. -/
def goQuote (s : String) : String :=
  "\"" ++ String.join (s.data.map goEscapeChar) ++ "\""

/-- Conversion applied by `appendValue` (src/textformatter.go lines
99-109) before quoting: a string value is used as is, any other value
goes through `fmt.Sprint`.  `fmt.Sprint` of an `Int`/`Bool` is exact;
printing a function value (its address) is abstracted by a placeholder,
and no claim depends on it. -/
def valueToString : Value → String
  | .vStr s => s
  | .vInt n => toString n
  | .vBool b => if b then "true" else "false"
  | .vFunc => "<func>"
  | .vFuncPtr => "<funcptr>"

/-- Body of `appendValue`: quote the converted value iff `needsQuoting`
holds. -/
def appendValueStr (v : Value) : String :=
  if needsQuoting (valueToString v) then goQuote (valueToString v) else valueToString v

/-- Character set named by the specification for unquoted values: ASCII
letters, digits, and `- . _ / @ ^ +`. -/
def allowedChar (c : Char) : Bool :=
  ('a' ≤ c && c ≤ 'z') ||
  ('A' ≤ c && c ≤ 'Z') ||
  ('0' ≤ c && c ≤ '9') ||
  c = '-' || c = '.' || c = '_' || c = '/' || c = '@' || c = '^' || c = '+'

/-- One reserved-key check of `fixParamsClash` (src/formatter.go): if the
user map holds `key`, move its value to the key `paramsPref ++ key` and
delete `key`; otherwise leave the map alone. -/
def clashKey (d : Params) (k : String) : Params :=
  match getParam d k with
  | some v => delParam (setParam d (paramsPref ++ k) v) k
  | none => d

/-- Function `fixParamsClash` (src/formatter.go lines 9-45): the four
unconditional reserved-key checks (time, message, level, error) in
source order, then the func and file checks only when caller reporting
is active.  The source mutates the map in place; here the updated map is
returned. -/
def fixParamsClash (d : Params) (reportCaller : Bool) : Params :=
  if reportCaller then
    clashKey (clashKey (clashKey (clashKey (clashKey (clashKey d timeKey) msgKey)
      levelKey) errKey) funcKey) fileKey
  else
    clashKey (clashKey (clashKey (clashKey d timeKey) msgKey) levelKey) errKey

/-- Go `sort.Strings` (byte-wise lexicographic).  UTF-8 byte order agrees
with scalar-value order, so Mathlib's linear order on `String` sorts
identically; on the duplicate-free key lists produced from a map any
correct sort yields the same list. -/
def sortStrings (l : List String) : List String :=
  l.insertionSort (· ≤ ·)

/-- Struct `TextFormatter` (src/textformatter.go lines 9-18). -/
structure TextFormatter where
  disableTimestamp : Bool
  timestampFormat : String
  disableSorting : Bool
deriving DecidableEq

/-- Caller frame captured by `getCaller` (`runtime.Frame`, the fields the
formatter reads). -/
structure Caller where
  function : String
  file : String
  line : Nat
deriving DecidableEq

/-- Struct `Logger` (src/rogger.go lines 34-54).  The output sink, the
mutex and the entry pool are abstracted: emission results are reified in
`Outcome`, and the formatter is the default text formatter (alternative
formatter plugins are outside the spec's core). -/
structure Logger where
  formatter : TextFormatter
  reportCaller : Bool
  level : Level
deriving DecidableEq

/-- Struct `Entry` (src/unnamed/part_001 lines 24-47).  The Go `Logger`
pointer becomes an `Option Logger`; `Time` is a `Nat` with `0` as the Go
zero time (`IsZero`); the transient render buffer is not modelled (it is
reset before every use). -/
structure Entry where
  logger : Option Logger
  data : Params
  time : Nat
  level : Level
  caller : Option Caller
  message : String
  err : String
deriving DecidableEq

/-- Method `Entry.HasCaller` (src/entry.go lines 57-59): logger attached,
caller reporting on, and a frame captured. -/
def HasCaller (e : Entry) : Bool :=
  (match e.logger with
   | some lg => lg.reportCaller
   | none => false) && e.caller.isSome

/-- Value of the `funcVal` local of `TextFormatter.Format`: assigned from
the caller frame only inside the `HasCaller` branch, `""` otherwise. -/
def funcValOf (e : Entry) : String :=
  if HasCaller e then
    match e.caller with
    | some c => c.function
    | none => ""
  else ""

/-- Value of the `fileVal` local of `TextFormatter.Format`:
`fmt.Sprintf("%s:%d", file, line)` inside the `HasCaller` branch, `""`
otherwise. -/
def fileValOf (e : Entry) : String :=
  if HasCaller e then
    match e.caller with
    | some c => c.file ++ ":" ++ toString c.line
    | none => ""
  else ""

/-- Timestamp layout selection of `TextFormatter.Format`: the configured
format, or `defaultTimestampFormat` when unset. -/
def tsFormatOf (f : TextFormatter) : String :=
  if f.timestampFormat = "" then defaultTimestampFormat else f.timestampFormat

/-- Key list `fixedKeys` built by `TextFormatter.Format`
(src/textformatter.go lines 26-57): time unless suppressed, message if
non-empty, level always, error if the entry's field-error is non-empty,
func/file under `HasCaller` when their values are non-empty, then the
user keys of the clash-fixed map, sorted unless sorting is disabled. -/
def formatKeys (f : TextFormatter) (e : Entry) : List String :=
  (if f.disableTimestamp then [] else [timeKey]) ++
  (if e.message = "" then [] else [msgKey]) ++
  [levelKey] ++
  (if e.err = "" then [] else [errKey]) ++
  (if HasCaller e then
     (if funcValOf e = "" then [] else [funcKey]) ++
     (if fileValOf e = "" then [] else [fileKey])
   else []) ++
  (if f.disableSorting then (fixParamsClash e.data (HasCaller e)).map Prod.fst
   else sortStrings ((fixParamsClash e.data (HasCaller e)).map Prod.fst))

/-- Value selected for one key by the switch in the rendering loop of
`TextFormatter.Format` (src/textformatter.go lines 66-85).  The Go
`time.Time.Format` layout engine is abstracted as the `fmtTime`
parameter.  A lookup miss renders as Go prints a nil interface; it
cannot occur for the keys of `formatKeys`. -/
def selectValue (fmtTime : Nat → String → String) (f : TextFormatter) (e : Entry)
    (key : String) : Value :=
  if key = timeKey then .vStr (fmtTime e.time (tsFormatOf f))
  else if key = msgKey then .vStr e.message
  else if key = levelKey then .vStr (levelString e.level)
  else if key = errKey then .vStr e.err
  else if key = funcKey then .vStr (funcValOf e)
  else if key = fileKey then .vStr (fileValOf e)
  else
    match getParam (fixParamsClash e.data (HasCaller e)) key with
    | some v => v
    | none => .vStr "<nil>"

/-- Ordered key/value pairs rendered by `TextFormatter.Format`: the
rendering loop emits exactly one pair per element of `fixedKeys`. -/
def formatPairs (fmtTime : Nat → String → String) (f : TextFormatter) (e : Entry) :
    List (String × Value) :=
  (formatKeys f e).map (fun k => (k, selectValue fmtTime f e k))

/-- Buffer construction of the rendering loop: `appendData` writes a
space before every pair except the first (the buffer starts empty), then
`key=value` with `appendValue` quoting, and a final newline. -/
def renderPairs (ps : List (String × Value)) : String :=
  (ps.foldl (fun acc p =>
    (if acc.length > 0 then acc ++ " " else acc) ++ p.1 ++ "=" ++ appendValueStr p.2) "") ++ "\n"

/-- Method `TextFormatter.Format` (src/textformatter.go lines 20-88),
split into the pair computation and the buffer rendering. -/
def Format (fmtTime : Nat → String → String) (f : TextFormatter) (e : Entry) : String :=
  renderPairs (formatPairs fmtTime f e)

/-- Reserved keys handled by `fixParamsClash` for a given caller flag. -/
def reservedKeys (hasC : Bool) : List String :=
  [timeKey, msgKey, levelKey, errKey] ++ (if hasC then [funcKey, fileKey] else [])

/-- Diagnostic text built for one rejected key: the Go local
`tmp := fmt.Sprintf("can not add field %q", k)`. -/
def rejectText (k : String) : String :=
  "can not add field " ++ goQuote k

/-- Method `Entry.WithParams` (src/unnamed/part_001 lines 92-129): copy
the receiver's map, then for each supplied pair either reject it (when
function-typed) into the running error string, or store it.  Note the
source appends the diagnostic to `entry.err` (the receiver's error), not
to the running accumulator. -/
def Entry.WithParams (e : Entry) (params : Params) : Entry :=
  let res := params.foldl (fun (acc : Params × String) kv =>
    if isErrField kv.2 then
      (acc.1, if acc.2 = "" then rejectText kv.1 else e.err ++ ", " ++ rejectText kv.1)
    else (setParam acc.1 kv.1 kv.2, acc.2)) (e.data, e.err)
  { e with data := res.1, err := res.2 }

/-- Method `Entry.WithParam` (src/unnamed/part_001 lines 87-89). -/
def Entry.WithParam (e : Entry) (k : String) (v : Value) : Entry :=
  Entry.WithParams e [(k, v)]

/-- Method `Entry.WithError` (src/unnamed/part_001 lines 82-84): the
error value is an arbitrary non-function value stored under `errKey`. -/
def Entry.WithError (e : Entry) (v : Value) : Entry :=
  Entry.WithParam e errKey v

/-- Method `Entry.WithTime` (src/unnamed/part_001 lines 132-143): a copy
with the timestamp overridden; the field map is shared. -/
def Entry.WithTime (e : Entry) (t : Nat) : Entry :=
  { e with time := t }

/-- Data component of the `WithParams` merge loop, in isolation. -/
def mergeParams (d : Params) (params : Params) : Params :=
  params.foldl (fun acc kv => if isErrField kv.2 then acc else setParam acc kv.1 kv.2) d

/-- Error-string component of the `WithParams` merge loop, in isolation;
`e0` is the receiver's error string read by the source's append. -/
def errRun (e0 : String) (a : String) (params : Params) : String :=
  params.foldl (fun acc kv =>
    if isErrField kv.2 then
      (if acc = "" then rejectText kv.1 else e0 ++ ", " ++ rejectText kv.1)
    else acc) a

/-- Sub-list of a params map holding only serializable (non-function)
values. -/
def funcFree (params : Params) : Params :=
  params.filter (fun kv => !(isErrField kv.2))

/-- Keys of the function-typed entries of a params map, in order. -/
def rejectedKeys (params : Params) : List String :=
  (params.filter (fun kv => isErrField kv.2)).map Prod.fst

/-- Union of two maps with the second one's bindings winning, written
from the specification's words for comparison with the behaviour of
`Entry.WithParams`. -/
def specUnion (d : Params) (params : Params) : Params :=
  params.foldl (fun acc kv => setParam acc kv.1 kv.2) d

/-- Effects of one logging call: the line handed to the output sink (if
any), the diagnostics printed to standard error, and the process exit
request (`os.Exit` / `Logger.Exit`). -/
structure Outcome where
  written : Option String
  stderrMsgs : List String
  exitCode : Option Nat
deriving DecidableEq

/-- Method `Logger.IsLevelEnabled` (src/rogger.go lines 77-79):
`level >= logger.Level`. -/
def IsLevelEnabled (lg : Logger) (level : Level) : Bool :=
  decide (lg.level ≤ level)

/-- Function `NewEntry` (src/unnamed/part_001 lines 59-64): logger
attached, empty map, Go zero values elsewhere.  `Logger.newEntry` hands
out a pooled entry whose map was reset on release and whose other fields
were never mutated (`Entry.log` works on a by-value copy), so a pooled
entry is observationally this fresh entry. -/
def NewEntry (lg : Logger) : Entry :=
  { logger := some lg, data := [], time := 0, level := 0, caller := none,
    message := "", err := "" }

/-- Mutations performed by `Entry.log` on its by-value copy
(src/unnamed/part_001 lines 147-158): default the timestamp to now when
it is the zero time, set level and message, and capture the caller frame
when the logger reports callers.  The `runtime.Callers` stack walk is
abstracted as the `callerRes` parameter. -/
def Entry.materialize (now : Nat) (callerRes : Option Caller) (rc : Bool)
    (l : Level) (msg : String) (e : Entry) : Entry :=
  { e with
    time := if e.time = 0 then now else e.time,
    level := l,
    message := msg,
    caller := if rc then callerRes else e.caller }

/-- Methods `Entry.log` and `Entry.write` (src/unnamed/part_001 lines
147-182): materialize the entry and hand the formatted line to the sink
under the logger's guard.  The sink write is modelled as succeeding; the
formatter never returns an error.  The `none` branch mirrors that `log`
is only reached with an attached logger. -/
def Entry.logRun (fmtTime : Nat → String → String) (now : Nat)
    (callerRes : Option Caller) (l : Level) (msg : String) (e : Entry) : Outcome :=
  match e.logger with
  | none => ⟨none, [], none⟩
  | some lg =>
      ⟨some (Format fmtTime lg.formatter
        (Entry.materialize now callerRes lg.reportCaller l msg e)), [], none⟩

/-- Method `Entry.Log` (src/unnamed/part_001 lines 184-192): stderr
diagnostic and return when no logger is attached, otherwise the gated
emission.  `fmt.Sprint(args...)` is abstracted as the `msg` argument. -/
def Entry.Log (fmtTime : Nat → String → String) (now : Nat)
    (callerRes : Option Caller) (level : Level) (msg : String) (e : Entry) : Outcome :=
  match e.logger with
  | none => ⟨none, ["Logger not attached"], none⟩
  | some lg =>
      if IsLevelEnabled lg level then Entry.logRun fmtTime now callerRes level msg e
      else ⟨none, [], none⟩

/-- Method `Entry.Logf` (src/unnamed/part_001 lines 219-227);
`fmt.Sprintf(format, args...)` is abstracted as `msg`. -/
def Entry.Logf (fmtTime : Nat → String → String) (now : Nat)
    (callerRes : Option Caller) (level : Level) (msg : String) (e : Entry) : Outcome :=
  match e.logger with
  | none => ⟨none, ["Logger not attached"], none⟩
  | some lg =>
      if IsLevelEnabled lg level then Entry.logRun fmtTime now callerRes level msg e
      else ⟨none, [], none⟩

/-- Method `Entry.Logln` (src/unnamed/part_001 lines 254-262);
`fmt.Sprintln(args...)` is abstracted as `msg`. -/
def Entry.Logln (fmtTime : Nat → String → String) (now : Nat)
    (callerRes : Option Caller) (level : Level) (msg : String) (e : Entry) : Outcome :=
  match e.logger with
  | none => ⟨none, ["Logger not attached"], none⟩
  | some lg =>
      if IsLevelEnabled lg level then Entry.logRun fmtTime now callerRes level msg e
      else ⟨none, [], none⟩

def Entry.Debug (fmtTime : Nat → String → String) (now : Nat)
    (callerRes : Option Caller) (msg : String) (e : Entry) : Outcome :=
  Entry.Log fmtTime now callerRes DebugLevel msg e

def Entry.Info (fmtTime : Nat → String → String) (now : Nat)
    (callerRes : Option Caller) (msg : String) (e : Entry) : Outcome :=
  Entry.Log fmtTime now callerRes InfoLevel msg e

def Entry.Warn (fmtTime : Nat → String → String) (now : Nat)
    (callerRes : Option Caller) (msg : String) (e : Entry) : Outcome :=
  Entry.Log fmtTime now callerRes WarnLevel msg e

def Entry.Error (fmtTime : Nat → String → String) (now : Nat)
    (callerRes : Option Caller) (msg : String) (e : Entry) : Outcome :=
  Entry.Log fmtTime now callerRes ErrorLevel msg e

/-- Method `Entry.Fatal` (src/unnamed/part_001 lines 210-217): the gated
log call, then either a second not-attached diagnostic or
`Logger.Exit(1)`. -/
def Entry.Fatal (fmtTime : Nat → String → String) (now : Nat)
    (callerRes : Option Caller) (msg : String) (e : Entry) : Outcome :=
  let o := Entry.Log fmtTime now callerRes FatalLevel msg e
  match e.logger with
  | none => { o with stderrMsgs := o.stderrMsgs ++ ["Logger not attached"] }
  | some _ => { o with exitCode := some 1 }

def Entry.Debugf (fmtTime : Nat → String → String) (now : Nat)
    (callerRes : Option Caller) (msg : String) (e : Entry) : Outcome :=
  Entry.Logf fmtTime now callerRes DebugLevel msg e

def Entry.Infof (fmtTime : Nat → String → String) (now : Nat)
    (callerRes : Option Caller) (msg : String) (e : Entry) : Outcome :=
  Entry.Logf fmtTime now callerRes InfoLevel msg e

def Entry.Warnf (fmtTime : Nat → String → String) (now : Nat)
    (callerRes : Option Caller) (msg : String) (e : Entry) : Outcome :=
  Entry.Logf fmtTime now callerRes WarnLevel msg e

def Entry.Errorf (fmtTime : Nat → String → String) (now : Nat)
    (callerRes : Option Caller) (msg : String) (e : Entry) : Outcome :=
  Entry.Logf fmtTime now callerRes ErrorLevel msg e

/-- Method `Entry.Fatalf` (src/unnamed/part_001 lines 245-252). -/
def Entry.Fatalf (fmtTime : Nat → String → String) (now : Nat)
    (callerRes : Option Caller) (msg : String) (e : Entry) : Outcome :=
  let o := Entry.Logf fmtTime now callerRes FatalLevel msg e
  match e.logger with
  | none => { o with stderrMsgs := o.stderrMsgs ++ ["Logger not attached"] }
  | some _ => { o with exitCode := some 1 }

def Entry.Debugln (fmtTime : Nat → String → String) (now : Nat)
    (callerRes : Option Caller) (msg : String) (e : Entry) : Outcome :=
  Entry.Logln fmtTime now callerRes DebugLevel msg e

def Entry.Infoln (fmtTime : Nat → String → String) (now : Nat)
    (callerRes : Option Caller) (msg : String) (e : Entry) : Outcome :=
  Entry.Logln fmtTime now callerRes InfoLevel msg e

def Entry.Warnln (fmtTime : Nat → String → String) (now : Nat)
    (callerRes : Option Caller) (msg : String) (e : Entry) : Outcome :=
  Entry.Logln fmtTime now callerRes WarnLevel msg e

def Entry.Errorln (fmtTime : Nat → String → String) (now : Nat)
    (callerRes : Option Caller) (msg : String) (e : Entry) : Outcome :=
  Entry.Logln fmtTime now callerRes ErrorLevel msg e

/-- Method `Entry.Fatalln` (src/unnamed/part_001 lines 280-287). -/
def Entry.Fatalln (fmtTime : Nat → String → String) (now : Nat)
    (callerRes : Option Caller) (msg : String) (e : Entry) : Outcome :=
  let o := Entry.Logln fmtTime now callerRes FatalLevel msg e
  match e.logger with
  | none => { o with stderrMsgs := o.stderrMsgs ++ ["Logger not attached"] }
  | some _ => { o with exitCode := some 1 }

/-- Method `Logger.Log` (src/rogger.go lines 142-148): gate, then run the
statement on a fresh (pooled) entry. -/
def Logger.Log (fmtTime : Nat → String → String) (now : Nat)
    (callerRes : Option Caller) (lg : Logger) (level : Level) (msg : String) : Outcome :=
  if IsLevelEnabled lg level then
    Entry.Log fmtTime now callerRes level msg (NewEntry lg)
  else ⟨none, [], none⟩

def Logger.Logf (fmtTime : Nat → String → String) (now : Nat)
    (callerRes : Option Caller) (lg : Logger) (level : Level) (msg : String) : Outcome :=
  if IsLevelEnabled lg level then
    Entry.Logf fmtTime now callerRes level msg (NewEntry lg)
  else ⟨none, [], none⟩

def Logger.Logln (fmtTime : Nat → String → String) (now : Nat)
    (callerRes : Option Caller) (lg : Logger) (level : Level) (msg : String) : Outcome :=
  if IsLevelEnabled lg level then
    Entry.Logln fmtTime now callerRes level msg (NewEntry lg)
  else ⟨none, [], none⟩

def Logger.Debug (fmtTime : Nat → String → String) (now : Nat)
    (callerRes : Option Caller) (lg : Logger) (msg : String) : Outcome :=
  Logger.Log fmtTime now callerRes lg DebugLevel msg

def Logger.Info (fmtTime : Nat → String → String) (now : Nat)
    (callerRes : Option Caller) (lg : Logger) (msg : String) : Outcome :=
  Logger.Log fmtTime now callerRes lg InfoLevel msg

def Logger.Warn (fmtTime : Nat → String → String) (now : Nat)
    (callerRes : Option Caller) (lg : Logger) (msg : String) : Outcome :=
  Logger.Log fmtTime now callerRes lg WarnLevel msg

def Logger.Error (fmtTime : Nat → String → String) (now : Nat)
    (callerRes : Option Caller) (lg : Logger) (msg : String) : Outcome :=
  Logger.Log fmtTime now callerRes lg ErrorLevel msg

/-- Method `Logger.Fatal` (src/rogger.go lines 166-169): the gated fatal
log, then `os.Exit(1)` unconditionally. -/
def Logger.Fatal (fmtTime : Nat → String → String) (now : Nat)
    (callerRes : Option Caller) (lg : Logger) (msg : String) : Outcome :=
  let o := Logger.Log fmtTime now callerRes lg FatalLevel msg
  { o with exitCode := some 1 }

def Logger.Debugf (fmtTime : Nat → String → String) (now : Nat)
    (callerRes : Option Caller) (lg : Logger) (msg : String) : Outcome :=
  Logger.Logf fmtTime now callerRes lg DebugLevel msg

def Logger.Infof (fmtTime : Nat → String → String) (now : Nat)
    (callerRes : Option Caller) (lg : Logger) (msg : String) : Outcome :=
  Logger.Logf fmtTime now callerRes lg InfoLevel msg

def Logger.Warnf (fmtTime : Nat → String → String) (now : Nat)
    (callerRes : Option Caller) (lg : Logger) (msg : String) : Outcome :=
  Logger.Logf fmtTime now callerRes lg WarnLevel msg

def Logger.Errorf (fmtTime : Nat → String → String) (now : Nat)
    (callerRes : Option Caller) (lg : Logger) (msg : String) : Outcome :=
  Logger.Logf fmtTime now callerRes lg ErrorLevel msg

/-- Method `Logger.Fatalf` (src/rogger.go lines 195-198). -/
def Logger.Fatalf (fmtTime : Nat → String → String) (now : Nat)
    (callerRes : Option Caller) (lg : Logger) (msg : String) : Outcome :=
  let o := Logger.Logf fmtTime now callerRes lg FatalLevel msg
  { o with exitCode := some 1 }

def Logger.Debugln (fmtTime : Nat → String → String) (now : Nat)
    (callerRes : Option Caller) (lg : Logger) (msg : String) : Outcome :=
  Logger.Logln fmtTime now callerRes lg DebugLevel msg

def Logger.Infoln (fmtTime : Nat → String → String) (now : Nat)
    (callerRes : Option Caller) (lg : Logger) (msg : String) : Outcome :=
  Logger.Logln fmtTime now callerRes lg InfoLevel msg

def Logger.Warnln (fmtTime : Nat → String → String) (now : Nat)
    (callerRes : Option Caller) (lg : Logger) (msg : String) : Outcome :=
  Logger.Logln fmtTime now callerRes lg WarnLevel msg

def Logger.Errorln (fmtTime : Nat → String → String) (now : Nat)
    (callerRes : Option Caller) (lg : Logger) (msg : String) : Outcome :=
  Logger.Logln fmtTime now callerRes lg ErrorLevel msg

/-- Method `Logger.Fatalln` (src/rogger.go lines 224-227): the gated
fatal log, then `Logger.Exit(1)` which calls `os.Exit(1)`. -/
def Logger.Fatalln (fmtTime : Nat → String → String) (now : Nat)
    (callerRes : Option Caller) (lg : Logger) (msg : String) : Outcome :=
  let o := Logger.Logln fmtTime now callerRes lg FatalLevel msg
  { o with exitCode := some 1 }

/-- Test fixture: a trivial abstract timestamp renderer. -/
def fmtTimeFix : Nat → String → String := fun t _ => toString t

/-- Test fixture: a logger with the default text formatter, no caller
reporting, minimum level Info (the `New()` defaults). -/
def lgFix : Logger :=
  { formatter := { disableTimestamp := false, timestampFormat := "", disableSorting := false },
    reportCaller := false, level := InfoLevel }

/-- Test fixture: a logger whose minimum level (6) lies above
`FatalLevel`; such a value is constructible because `Level` is a plain
unsigned integer and `SetLevel` accepts any value. -/
def lgHigh : Logger :=
  { formatter := { disableTimestamp := false, timestampFormat := "", disableSorting := false },
    reportCaller := false, level := 6 }

/-- Test fixture: an entry with no logger attached. -/
def entryNil : Entry :=
  { logger := none, data := [], time := 0, level := 0, caller := none,
    message := "", err := "" }

/-- Test fixture: an entry carrying a user field that collides with the
reserved `level` key. -/
def entryClash : Entry :=
  { logger := some lgFix, data := [(levelKey, Value.vStr "user")], time := 5,
    level := InfoLevel, caller := none, message := "hi", err := "" }

theorem needsQuoting_iff (s : String) :
    needsQuoting s = true ↔ (s = "" ∨ ∃ c ∈ s.data, allowedChar c = false) := by
  have hrfl : needsQuoting s =
      (if s.length = 0 then true else s.data.any fun ch => !(allowedChar ch)) := rfl
  rcases s with ⟨cs⟩
  rw [hrfl]
  have hempty : ((⟨cs⟩ : String) = "") ↔ cs = [] := by
    simp [String.ext_iff]
  by_cases h0 : cs = []
  · subst h0
    simp
  · have hlen : ¬ (String.length ⟨cs⟩ = 0) := by
      simpa [String.length, List.length_eq_zero] using h0
    rw [if_neg hlen, List.any_eq_true]
    constructor
    · rintro ⟨c, hm, hc⟩
      right
      exact ⟨c, hm, by simpa using hc⟩
    · rintro (h | ⟨c, hm, hc⟩)
      · exact absurd (hempty.mp h) h0
      · exact ⟨c, hm, by simpa using hc⟩

/-- C2: a string value rendered by the text formatter is emitted in Go
`%q` quoted form iff it is the empty string or contains a character
outside {ASCII letters, digits, `-`, `.`, `_`, `/`, `@`, `^`, `+`}; in
particular a value containing a space or `=` is always quoted, a
non-empty value over the allowed set is never quoted, and the empty
string is always quoted. -/
theorem claim2_value_quoting (s : String) :
    (appendValueStr (.vStr s) = (if needsQuoting s then goQuote s else s)) ∧
    (needsQuoting s = true ↔ (s = "" ∨ ∃ c ∈ s.data, allowedChar c = false)) ∧
    ((' ' ∈ s.data ∨ '=' ∈ s.data) → appendValueStr (.vStr s) = goQuote s) ∧
    ((s ≠ "" ∧ ∀ c ∈ s.data, allowedChar c = true) → appendValueStr (.vStr s) = s) ∧
    needsQuoting "" = true := by
  refine ⟨rfl, needsQuoting_iff s, ?_, ?_, by decide⟩
  · intro h
    have hq : needsQuoting s = true := by
      apply (needsQuoting_iff s).mpr
      right
      rcases h with h | h
      · exact ⟨' ', h, by decide⟩
      · exact ⟨'=', h, by decide⟩
    simp [appendValueStr, valueToString, hq]
  · rintro ⟨hne, hall⟩
    have hq : needsQuoting s = false := by
      by_contra hq
      have hq' := (needsQuoting_iff s).mp (by simpa using hq)
      rcases hq' with h | ⟨c, hm, hc⟩
      · exact hne h
      · simp [hall c hm] at hc
    simp [appendValueStr, valueToString, hq]

/-- Witness for C2 at concrete inputs: a value with a space is quoted and
a plain alphanumeric value is not. -/
theorem claim2_value_quoting_witness :
    appendValueStr (.vStr "a b") = goQuote "a b" ∧ appendValueStr (.vStr "ab") = "ab" :=
  ⟨(claim2_value_quoting "a b").2.2.1 (Or.inl (by decide)),
   (claim2_value_quoting "ab").2.2.2.1 ⟨by decide, by decide⟩⟩

/-- C8 divergence: `Level.String` of src/rogger.go (the snapshot the rest
of the live package is consistent with) sends `TraceLevel` to
`"unknown"` because its switch is missing the trace case, while the
alternate snapshot src/unnamed/part_000 and the specification send it to
`"trace"`.  All other enumeration members map to their lowercase tokens
and the out-of-range value 6 maps to `"unknown"` in both versions. -/
theorem claim8_level_string_divergence :
    levelString TraceLevel = "unknown" ∧
    levelStringAlt TraceLevel = "trace" ∧
    levelString DebugLevel = "debug" ∧
    levelString InfoLevel = "info" ∧
    levelString WarnLevel = "warn" ∧
    levelString ErrorLevel = "error" ∧
    levelString FatalLevel = "fatal" ∧
    levelStringAlt DebugLevel = "debug" ∧
    levelStringAlt InfoLevel = "info" ∧
    levelStringAlt WarnLevel = "warn" ∧
    levelStringAlt ErrorLevel = "error" ∧
    levelStringAlt FatalLevel = "fatal" ∧
    levelString 6 = "unknown" ∧
    levelStringAlt 6 = "unknown" := by
  decide

theorem getParam_setParam_self (m : Params) (k : String) (v : Value) :
    getParam (setParam m k v) k = some v := by
  induction m with
  | nil => simp [setParam, getParam]
  | cons p rest ih =>
      obtain ⟨k', v'⟩ := p
      by_cases h : k' = k
      · simp [setParam, h, getParam]
      · simp [setParam, h, getParam, ih]

theorem getParam_setParam_ne (m : Params) (k k' : String) (v : Value) (h : k' ≠ k) :
    getParam (setParam m k v) k' = getParam m k' := by
  induction m with
  | nil => simp [setParam, getParam, Ne.symm h]
  | cons p rest ih =>
      obtain ⟨k0, v0⟩ := p
      by_cases h0 : k0 = k
      · subst h0
        simp [setParam, getParam, Ne.symm h]
      · simp [setParam, h0, getParam, ih]

theorem getParam_delParam_self (m : Params) (k : String) :
    getParam (delParam m k) k = none := by
  induction m with
  | nil => simp [delParam, getParam]
  | cons p rest ih =>
      obtain ⟨k0, v0⟩ := p
      by_cases h0 : k0 = k
      · simp [delParam, h0, ih]
      · simp [delParam, h0, getParam, ih]

theorem getParam_delParam_ne (m : Params) (k k' : String) (h : k' ≠ k) :
    getParam (delParam m k) k' = getParam m k' := by
  induction m with
  | nil => simp [delParam]
  | cons p rest ih =>
      obtain ⟨k0, v0⟩ := p
      by_cases h0 : k0 = k
      · subst h0
        simp [delParam, getParam, Ne.symm h, ih]
      · simp [delParam, h0, getParam, ih]

theorem getParam_eq_none_iff (m : Params) (k : String) :
    getParam m k = none ↔ k ∉ m.map Prod.fst := by
  induction m with
  | nil => simp [getParam]
  | cons p rest ih =>
      obtain ⟨k', v⟩ := p
      by_cases h : k' = k
      · simp [getParam, h]
      · simp [getParam, h, ih, Ne.symm h]

theorem mem_of_getParam_some {m : Params} {k : String} {v : Value}
    (h : getParam m k = some v) : (k, v) ∈ m := by
  induction m with
  | nil => simp [getParam] at h
  | cons p rest ih =>
      obtain ⟨k', v'⟩ := p
      by_cases hk : k' = k
      · subst hk
        simp [getParam] at h
        simp [h]
      · simp [getParam, hk] at h
        exact List.mem_cons_of_mem _ (ih h)

theorem nodupKeys_cons {k : String} {v : Value} {rest : Params} :
    nodupKeys ((k, v) :: rest) ↔ k ∉ rest.map Prod.fst ∧ nodupKeys rest := by
  simp [nodupKeys]

theorem getParam_eq_some_of_mem {m : Params} (hnd : nodupKeys m) {k : String} {v : Value}
    (h : (k, v) ∈ m) : getParam m k = some v := by
  induction m with
  | nil => simp at h
  | cons p rest ih =>
      obtain ⟨k', v'⟩ := p
      rcases List.mem_cons.mp h with h1 | h1
      · rw [getParam, if_pos]
        · exact congrArg some (congrArg Prod.snd h1.symm)
        · exact (congrArg Prod.fst h1.symm)
      · have hk : k' ≠ k := by
          intro hkk
          subst hkk
          exact (nodupKeys_cons.mp hnd).1 (List.mem_map_of_mem Prod.fst h1)
        rw [getParam, if_neg hk]
        exact ih (nodupKeys_cons.mp hnd).2 h1

theorem keys_setParam (m : Params) (k : String) (v : Value) :
    (setParam m k v).map Prod.fst =
      if k ∈ m.map Prod.fst then m.map Prod.fst else m.map Prod.fst ++ [k] := by
  induction m with
  | nil => simp [setParam]
  | cons p rest ih =>
      obtain ⟨k', v'⟩ := p
      by_cases h : k' = k
      · simp [setParam, h]
      · by_cases hm : k ∈ rest.map Prod.fst
        · simp [setParam, h, ih, hm, Ne.symm h]
        · simp [setParam, h, ih, hm, Ne.symm h]

theorem nodupKeys_setParam {m : Params} (hnd : nodupKeys m) (k : String) (v : Value) :
    nodupKeys (setParam m k v) := by
  unfold nodupKeys
  rw [keys_setParam]
  by_cases hm : k ∈ m.map Prod.fst
  · simpa [hm] using hnd
  · rw [if_neg hm, List.nodup_append]
    refine ⟨hnd, List.nodup_singleton k, ?_⟩
    intro a ha hb
    rw [List.mem_singleton] at hb
    exact hm (hb ▸ ha)

theorem delParam_eq_filter (m : Params) (k : String) :
    delParam m k = m.filter (fun p => decide (p.1 ≠ k)) := by
  induction m with
  | nil => simp [delParam]
  | cons p rest ih =>
      obtain ⟨k', v⟩ := p
      by_cases h : k' = k
      · simp [delParam, h, ih]
      · simp [delParam, h, ih]

theorem delParam_eq_of_not_mem {m : Params} {k : String} (h : k ∉ m.map Prod.fst) :
    delParam m k = m := by
  induction m with
  | nil => simp [delParam]
  | cons p rest ih =>
      obtain ⟨k', v⟩ := p
      simp only [List.map_cons, List.mem_cons] at h
      push_neg at h
      rw [delParam, if_neg (fun hk => h.1 hk.symm), ih h.2]

theorem nodupKeys_delParam {m : Params} (hnd : nodupKeys m) (k : String) :
    nodupKeys (delParam m k) := by
  unfold nodupKeys
  rw [delParam_eq_filter]
  exact List.Nodup.sublist (List.Sublist.map Prod.fst (List.filter_sublist m)) hnd

theorem getParam_congr_perm {m1 m2 : Params} (hp : m1.Perm m2) (hnd : nodupKeys m1)
    (k : String) : getParam m1 k = getParam m2 k := by
  have hnd2 : nodupKeys m2 := ((hp.map Prod.fst).nodup_iff).mp hnd
  cases h1 : getParam m1 k with
  | some v =>
      exact (getParam_eq_some_of_mem hnd2 (hp.mem_iff.mp (mem_of_getParam_some h1))).symm
  | none =>
      have h2 : k ∉ m2.map Prod.fst := by
        have hmem := (getParam_eq_none_iff m1 k).mp h1
        intro hc
        exact hmem (((hp.map Prod.fst).mem_iff).mpr hc)
      exact ((getParam_eq_none_iff m2 k).mpr h2).symm

theorem setParam_perm_cons_delParam {m : Params} (hnd : nodupKeys m) (k : String)
    (v : Value) : (setParam m k v).Perm ((k, v) :: delParam m k) := by
  induction m with
  | nil => simp [setParam, delParam]
  | cons p rest ih =>
      obtain ⟨k', v'⟩ := p
      obtain ⟨hk', hrest⟩ := nodupKeys_cons.mp hnd
      by_cases h : k' = k
      · subst h
        rw [setParam, if_pos rfl, delParam, if_pos rfl, delParam_eq_of_not_mem hk']
      · rw [setParam, if_neg h, delParam, if_neg h]
        exact ((ih hrest).cons _).trans (List.Perm.swap (k, v) (k', v') _)

theorem delParam_perm {m1 m2 : Params} (hp : m1.Perm m2) (k : String) :
    (delParam m1 k).Perm (delParam m2 k) := by
  rw [delParam_eq_filter, delParam_eq_filter]
  exact hp.filter _

theorem setParam_perm {m1 m2 : Params} (hp : m1.Perm m2) (hnd : nodupKeys m1)
    (k : String) (v : Value) : (setParam m1 k v).Perm (setParam m2 k v) := by
  have hnd2 : nodupKeys m2 := ((hp.map Prod.fst).nodup_iff).mp hnd
  exact ((setParam_perm_cons_delParam hnd k v).trans
    ((delParam_perm hp k).cons _)).trans (setParam_perm_cons_delParam hnd2 k v).symm

theorem getParam_clashKey_self (d : Params) (k : String) :
    getParam (clashKey d k) k = none := by
  unfold clashKey
  cases hd : getParam d k with
  | none => exact hd
  | some v => exact getParam_delParam_self _ _

theorem getParam_clashKey_of_ne (d : Params) (k k' : String) (h1 : k' ≠ k)
    (h2 : k' ≠ paramsPref ++ k) : getParam (clashKey d k) k' = getParam d k' := by
  unfold clashKey
  cases hd : getParam d k with
  | none => rfl
  | some v =>
      rw [getParam_delParam_ne _ _ _ h1, getParam_setParam_ne _ _ _ _ h2]

theorem getParam_clashKey_moved (d : Params) (k : String) (v : Value)
    (h : getParam d k = some v) (hne : paramsPref ++ k ≠ k) :
    getParam (clashKey d k) (paramsPref ++ k) = some v := by
  unfold clashKey
  rw [h, getParam_delParam_ne _ _ _ hne, getParam_setParam_self]

theorem nodupKeys_clashKey {d : Params} (hnd : nodupKeys d) (k : String) :
    nodupKeys (clashKey d k) := by
  unfold clashKey
  cases hd : getParam d k with
  | none => exact hnd
  | some v => exact nodupKeys_delParam (nodupKeys_setParam hnd _ _) _

theorem clashKey_perm {d1 d2 : Params} (hp : d1.Perm d2) (hnd : nodupKeys d1)
    (k : String) : (clashKey d1 k).Perm (clashKey d2 k) := by
  have hg : getParam d2 k = getParam d1 k := (getParam_congr_perm hp hnd k).symm
  unfold clashKey
  rw [hg]
  cases hd : getParam d1 k with
  | none => exact hp
  | some v => exact delParam_perm (setParam_perm hp hnd _ _) _

theorem nodupKeys_fixParamsClash {d : Params} (hnd : nodupKeys d) (rc : Bool) :
    nodupKeys (fixParamsClash d rc) := by
  cases rc with
  | false =>
      exact nodupKeys_clashKey (nodupKeys_clashKey (nodupKeys_clashKey
        (nodupKeys_clashKey hnd timeKey) msgKey) levelKey) errKey
  | true =>
      exact nodupKeys_clashKey (nodupKeys_clashKey (nodupKeys_clashKey
        (nodupKeys_clashKey (nodupKeys_clashKey (nodupKeys_clashKey hnd timeKey)
          msgKey) levelKey) errKey) funcKey) fileKey

theorem fixParamsClash_perm {d1 d2 : Params} (hp : d1.Perm d2) (hnd : nodupKeys d1)
    (rc : Bool) : (fixParamsClash d1 rc).Perm (fixParamsClash d2 rc) := by
  have h1 := clashKey_perm hp hnd timeKey
  have n1 := nodupKeys_clashKey hnd timeKey
  have h2 := clashKey_perm h1 n1 msgKey
  have n2 := nodupKeys_clashKey n1 msgKey
  have h3 := clashKey_perm h2 n2 levelKey
  have n3 := nodupKeys_clashKey n2 levelKey
  have h4 := clashKey_perm h3 n3 errKey
  have n4 := nodupKeys_clashKey n3 errKey
  cases rc with
  | false => exact h4
  | true =>
      have h5 := clashKey_perm h4 n4 funcKey
      have n5 := nodupKeys_clashKey n4 funcKey
      exact clashKey_perm h5 n5 fileKey

theorem fix_time_none (d : Params) (rc : Bool) :
    getParam (fixParamsClash d rc) timeKey = none := by
  cases rc with
  | false =>
      show getParam (clashKey (clashKey (clashKey (clashKey d timeKey) msgKey)
        levelKey) errKey) timeKey = none
      rw [getParam_clashKey_of_ne _ _ _ (by decide) (by decide),
          getParam_clashKey_of_ne _ _ _ (by decide) (by decide),
          getParam_clashKey_of_ne _ _ _ (by decide) (by decide)]
      exact getParam_clashKey_self _ _
  | true =>
      show getParam (clashKey (clashKey (clashKey (clashKey (clashKey (clashKey d
        timeKey) msgKey) levelKey) errKey) funcKey) fileKey) timeKey = none
      rw [getParam_clashKey_of_ne _ _ _ (by decide) (by decide),
          getParam_clashKey_of_ne _ _ _ (by decide) (by decide),
          getParam_clashKey_of_ne _ _ _ (by decide) (by decide),
          getParam_clashKey_of_ne _ _ _ (by decide) (by decide),
          getParam_clashKey_of_ne _ _ _ (by decide) (by decide)]
      exact getParam_clashKey_self _ _

theorem fix_msg_none (d : Params) (rc : Bool) :
    getParam (fixParamsClash d rc) msgKey = none := by
  cases rc with
  | false =>
      show getParam (clashKey (clashKey (clashKey (clashKey d timeKey) msgKey)
        levelKey) errKey) msgKey = none
      rw [getParam_clashKey_of_ne _ _ _ (by decide) (by decide),
          getParam_clashKey_of_ne _ _ _ (by decide) (by decide)]
      exact getParam_clashKey_self _ _
  | true =>
      show getParam (clashKey (clashKey (clashKey (clashKey (clashKey (clashKey d
        timeKey) msgKey) levelKey) errKey) funcKey) fileKey) msgKey = none
      rw [getParam_clashKey_of_ne _ _ _ (by decide) (by decide),
          getParam_clashKey_of_ne _ _ _ (by decide) (by decide),
          getParam_clashKey_of_ne _ _ _ (by decide) (by decide),
          getParam_clashKey_of_ne _ _ _ (by decide) (by decide)]
      exact getParam_clashKey_self _ _

theorem fix_level_none (d : Params) (rc : Bool) :
    getParam (fixParamsClash d rc) levelKey = none := by
  cases rc with
  | false =>
      show getParam (clashKey (clashKey (clashKey (clashKey d timeKey) msgKey)
        levelKey) errKey) levelKey = none
      rw [getParam_clashKey_of_ne _ _ _ (by decide) (by decide)]
      exact getParam_clashKey_self _ _
  | true =>
      show getParam (clashKey (clashKey (clashKey (clashKey (clashKey (clashKey d
        timeKey) msgKey) levelKey) errKey) funcKey) fileKey) levelKey = none
      rw [getParam_clashKey_of_ne _ _ _ (by decide) (by decide),
          getParam_clashKey_of_ne _ _ _ (by decide) (by decide),
          getParam_clashKey_of_ne _ _ _ (by decide) (by decide)]
      exact getParam_clashKey_self _ _

theorem fix_err_none (d : Params) (rc : Bool) :
    getParam (fixParamsClash d rc) errKey = none := by
  cases rc with
  | false =>
      show getParam (clashKey (clashKey (clashKey (clashKey d timeKey) msgKey)
        levelKey) errKey) errKey = none
      exact getParam_clashKey_self _ _
  | true =>
      show getParam (clashKey (clashKey (clashKey (clashKey (clashKey (clashKey d
        timeKey) msgKey) levelKey) errKey) funcKey) fileKey) errKey = none
      rw [getParam_clashKey_of_ne _ _ _ (by decide) (by decide),
          getParam_clashKey_of_ne _ _ _ (by decide) (by decide)]
      exact getParam_clashKey_self _ _

theorem fix_func_none (d : Params) :
    getParam (fixParamsClash d true) funcKey = none := by
  show getParam (clashKey (clashKey (clashKey (clashKey (clashKey (clashKey d
    timeKey) msgKey) levelKey) errKey) funcKey) fileKey) funcKey = none
  rw [getParam_clashKey_of_ne _ _ _ (by decide) (by decide)]
  exact getParam_clashKey_self _ _

theorem fix_file_none (d : Params) :
    getParam (fixParamsClash d true) fileKey = none := by
  show getParam (clashKey (clashKey (clashKey (clashKey (clashKey (clashKey d
    timeKey) msgKey) levelKey) errKey) funcKey) fileKey) fileKey = none
  exact getParam_clashKey_self _ _

theorem fix_func_off (d : Params) :
    getParam (fixParamsClash d false) funcKey = getParam d funcKey := by
  show getParam (clashKey (clashKey (clashKey (clashKey d timeKey) msgKey)
    levelKey) errKey) funcKey = getParam d funcKey
  rw [getParam_clashKey_of_ne _ _ _ (by decide) (by decide),
      getParam_clashKey_of_ne _ _ _ (by decide) (by decide),
      getParam_clashKey_of_ne _ _ _ (by decide) (by decide),
      getParam_clashKey_of_ne _ _ _ (by decide) (by decide)]

theorem fix_file_off (d : Params) :
    getParam (fixParamsClash d false) fileKey = getParam d fileKey := by
  show getParam (clashKey (clashKey (clashKey (clashKey d timeKey) msgKey)
    levelKey) errKey) fileKey = getParam d fileKey
  rw [getParam_clashKey_of_ne _ _ _ (by decide) (by decide),
      getParam_clashKey_of_ne _ _ _ (by decide) (by decide),
      getParam_clashKey_of_ne _ _ _ (by decide) (by decide),
      getParam_clashKey_of_ne _ _ _ (by decide) (by decide)]

theorem fix_time_moved (d : Params) (rc : Bool) (v : Value)
    (h : getParam d timeKey = some v) :
    getParam (fixParamsClash d rc) (paramsPref ++ timeKey) = some v := by
  cases rc with
  | false =>
      show getParam (clashKey (clashKey (clashKey (clashKey d timeKey) msgKey)
        levelKey) errKey) (paramsPref ++ timeKey) = some v
      rw [getParam_clashKey_of_ne _ _ _ (by decide) (by decide),
          getParam_clashKey_of_ne _ _ _ (by decide) (by decide),
          getParam_clashKey_of_ne _ _ _ (by decide) (by decide)]
      exact getParam_clashKey_moved _ _ _ h (by decide)
  | true =>
      show getParam (clashKey (clashKey (clashKey (clashKey (clashKey (clashKey d
        timeKey) msgKey) levelKey) errKey) funcKey) fileKey) (paramsPref ++ timeKey) = some v
      rw [getParam_clashKey_of_ne _ _ _ (by decide) (by decide),
          getParam_clashKey_of_ne _ _ _ (by decide) (by decide),
          getParam_clashKey_of_ne _ _ _ (by decide) (by decide),
          getParam_clashKey_of_ne _ _ _ (by decide) (by decide),
          getParam_clashKey_of_ne _ _ _ (by decide) (by decide)]
      exact getParam_clashKey_moved _ _ _ h (by decide)

theorem fix_msg_moved (d : Params) (rc : Bool) (v : Value)
    (h : getParam d msgKey = some v) :
    getParam (fixParamsClash d rc) (paramsPref ++ msgKey) = some v := by
  have h1 : getParam (clashKey d timeKey) msgKey = some v := by
    rw [getParam_clashKey_of_ne _ _ _ (by decide) (by decide)]
    exact h
  cases rc with
  | false =>
      show getParam (clashKey (clashKey (clashKey (clashKey d timeKey) msgKey)
        levelKey) errKey) (paramsPref ++ msgKey) = some v
      rw [getParam_clashKey_of_ne _ _ _ (by decide) (by decide),
          getParam_clashKey_of_ne _ _ _ (by decide) (by decide)]
      exact getParam_clashKey_moved _ _ _ h1 (by decide)
  | true =>
      show getParam (clashKey (clashKey (clashKey (clashKey (clashKey (clashKey d
        timeKey) msgKey) levelKey) errKey) funcKey) fileKey) (paramsPref ++ msgKey) = some v
      rw [getParam_clashKey_of_ne _ _ _ (by decide) (by decide),
          getParam_clashKey_of_ne _ _ _ (by decide) (by decide),
          getParam_clashKey_of_ne _ _ _ (by decide) (by decide),
          getParam_clashKey_of_ne _ _ _ (by decide) (by decide)]
      exact getParam_clashKey_moved _ _ _ h1 (by decide)

theorem fix_level_moved (d : Params) (rc : Bool) (v : Value)
    (h : getParam d levelKey = some v) :
    getParam (fixParamsClash d rc) (paramsPref ++ levelKey) = some v := by
  have h1 : getParam (clashKey (clashKey d timeKey) msgKey) levelKey = some v := by
    rw [getParam_clashKey_of_ne _ _ _ (by decide) (by decide),
        getParam_clashKey_of_ne _ _ _ (by decide) (by decide)]
    exact h
  cases rc with
  | false =>
      show getParam (clashKey (clashKey (clashKey (clashKey d timeKey) msgKey)
        levelKey) errKey) (paramsPref ++ levelKey) = some v
      rw [getParam_clashKey_of_ne _ _ _ (by decide) (by decide)]
      exact getParam_clashKey_moved _ _ _ h1 (by decide)
  | true =>
      show getParam (clashKey (clashKey (clashKey (clashKey (clashKey (clashKey d
        timeKey) msgKey) levelKey) errKey) funcKey) fileKey) (paramsPref ++ levelKey) = some v
      rw [getParam_clashKey_of_ne _ _ _ (by decide) (by decide),
          getParam_clashKey_of_ne _ _ _ (by decide) (by decide),
          getParam_clashKey_of_ne _ _ _ (by decide) (by decide)]
      exact getParam_clashKey_moved _ _ _ h1 (by decide)

theorem fix_err_moved (d : Params) (rc : Bool) (v : Value)
    (h : getParam d errKey = some v) :
    getParam (fixParamsClash d rc) (paramsPref ++ errKey) = some v := by
  have h1 : getParam (clashKey (clashKey (clashKey d timeKey) msgKey) levelKey)
      errKey = some v := by
    rw [getParam_clashKey_of_ne _ _ _ (by decide) (by decide),
        getParam_clashKey_of_ne _ _ _ (by decide) (by decide),
        getParam_clashKey_of_ne _ _ _ (by decide) (by decide)]
    exact h
  cases rc with
  | false =>
      show getParam (clashKey (clashKey (clashKey (clashKey d timeKey) msgKey)
        levelKey) errKey) (paramsPref ++ errKey) = some v
      exact getParam_clashKey_moved _ _ _ h1 (by decide)
  | true =>
      show getParam (clashKey (clashKey (clashKey (clashKey (clashKey (clashKey d
        timeKey) msgKey) levelKey) errKey) funcKey) fileKey) (paramsPref ++ errKey) = some v
      rw [getParam_clashKey_of_ne _ _ _ (by decide) (by decide),
          getParam_clashKey_of_ne _ _ _ (by decide) (by decide)]
      exact getParam_clashKey_moved _ _ _ h1 (by decide)

theorem fix_func_moved (d : Params) (v : Value)
    (h : getParam d funcKey = some v) :
    getParam (fixParamsClash d true) (paramsPref ++ funcKey) = some v := by
  have h1 : getParam (clashKey (clashKey (clashKey (clashKey d timeKey) msgKey)
      levelKey) errKey) funcKey = some v := by
    rw [getParam_clashKey_of_ne _ _ _ (by decide) (by decide),
        getParam_clashKey_of_ne _ _ _ (by decide) (by decide),
        getParam_clashKey_of_ne _ _ _ (by decide) (by decide),
        getParam_clashKey_of_ne _ _ _ (by decide) (by decide)]
    exact h
  show getParam (clashKey (clashKey (clashKey (clashKey (clashKey (clashKey d
    timeKey) msgKey) levelKey) errKey) funcKey) fileKey) (paramsPref ++ funcKey) = some v
  rw [getParam_clashKey_of_ne _ _ _ (by decide) (by decide)]
  exact getParam_clashKey_moved _ _ _ h1 (by decide)

theorem fix_file_moved (d : Params) (v : Value)
    (h : getParam d fileKey = some v) :
    getParam (fixParamsClash d true) (paramsPref ++ fileKey) = some v := by
  have h1 : getParam (clashKey (clashKey (clashKey (clashKey (clashKey d timeKey)
      msgKey) levelKey) errKey) funcKey) fileKey = some v := by
    rw [getParam_clashKey_of_ne _ _ _ (by decide) (by decide),
        getParam_clashKey_of_ne _ _ _ (by decide) (by decide),
        getParam_clashKey_of_ne _ _ _ (by decide) (by decide),
        getParam_clashKey_of_ne _ _ _ (by decide) (by decide),
        getParam_clashKey_of_ne _ _ _ (by decide) (by decide)]
    exact h
  show getParam (clashKey (clashKey (clashKey (clashKey (clashKey (clashKey d
    timeKey) msgKey) levelKey) errKey) funcKey) fileKey) (paramsPref ++ fileKey) = some v
  exact getParam_clashKey_moved _ _ _ h1 (by decide)

theorem formatPairs_keys (fmtTime : Nat → String → String) (f : TextFormatter)
    (e : Entry) : (formatPairs fmtTime f e).map Prod.fst = formatKeys f e := by
  simp only [formatPairs, List.map_map]
  exact List.map_id _

theorem count_ite_singleton_ne {c : Prop} [Decidable c] {k k' : String} (h : k' ≠ k) :
    List.count k (if c then ([] : List String) else [k']) = 0 := by
  split
  · rfl
  · exact List.count_eq_zero.mpr (by simp [Ne.symm h])

theorem count_ite_singleton_self {c : Prop} [Decidable c] (k : String) :
    List.count k (if c then ([] : List String) else [k]) = if c then 0 else 1 := by
  split <;> simp

theorem count_user_zero (f : TextFormatter) (e : Entry) (k : String)
    (h : getParam (fixParamsClash e.data (HasCaller e)) k = none) :
    List.count k
      (if f.disableSorting then (fixParamsClash e.data (HasCaller e)).map Prod.fst
       else sortStrings ((fixParamsClash e.data (HasCaller e)).map Prod.fst)) = 0 := by
  have hmem : k ∉ (fixParamsClash e.data (HasCaller e)).map Prod.fst :=
    (getParam_eq_none_iff _ _).mp h
  by_cases hs : f.disableSorting
  · rw [if_pos hs]
    exact List.count_eq_zero.mpr hmem
  · rw [if_neg hs]
    unfold sortStrings
    rw [(List.perm_insertionSort _ _).count_eq]
    exact List.count_eq_zero.mpr hmem

theorem count_caller_part_ne (e : Entry) {k : String} (hf : funcKey ≠ k)
    (hfi : fileKey ≠ k) :
    List.count k (if HasCaller e then
      (if funcValOf e = "" then ([] : List String) else [funcKey]) ++
      (if fileValOf e = "" then ([] : List String) else [fileKey])
    else []) = 0 := by
  split
  · rw [List.count_append, count_ite_singleton_ne hf, count_ite_singleton_ne hfi]
  · rfl

theorem mem_formatKeys_user {f : TextFormatter} {e : Entry} {k : String}
    (h : k ∈ (fixParamsClash e.data (HasCaller e)).map Prod.fst) :
    k ∈ formatKeys f e := by
  unfold formatKeys
  refine List.mem_append.mpr (Or.inr ?_)
  by_cases hs : f.disableSorting
  · rw [if_pos hs]
    exact h
  · rw [if_neg hs]
    unfold sortStrings
    exact ((List.perm_insertionSort _ _).mem_iff).mpr h

theorem selectValue_default (fmtTime : Nat → String → String) (f : TextFormatter)
    (e : Entry) {k : String}
    (h1 : k ≠ timeKey) (h2 : k ≠ msgKey) (h3 : k ≠ levelKey) (h4 : k ≠ errKey)
    (h5 : k ≠ funcKey) (h6 : k ≠ fileKey) :
    selectValue fmtTime f e k =
      (match getParam (fixParamsClash e.data (HasCaller e)) k with
       | some v => v
       | none => .vStr "<nil>") := by
  unfold selectValue
  rw [if_neg h1, if_neg h2, if_neg h3, if_neg h4, if_neg h5, if_neg h6]

theorem pair_mem_of_user_binding (fmtTime : Nat → String → String) (f : TextFormatter)
    (e : Entry) {k : String} {v : Value}
    (h1 : k ≠ timeKey) (h2 : k ≠ msgKey) (h3 : k ≠ levelKey) (h4 : k ≠ errKey)
    (h5 : k ≠ funcKey) (h6 : k ≠ fileKey)
    (hv : getParam (fixParamsClash e.data (HasCaller e)) k = some v) :
    (k, v) ∈ formatPairs fmtTime f e := by
  have hkm : k ∈ (fixParamsClash e.data (HasCaller e)).map Prod.fst := by
    by_contra hno
    rw [(getParam_eq_none_iff _ _).mpr hno] at hv
    cases hv
  have hp : (k, selectValue fmtTime f e k) ∈ formatPairs fmtTime f e :=
    List.mem_map_of_mem (fun k => (k, selectValue fmtTime f e k))
      (mem_formatKeys_user (f := f) hkm)
  rw [selectValue_default fmtTime f e h1 h2 h3 h4 h5 h6, hv] at hp
  exact hp

theorem fileValOf_ne_empty {e : Entry} (hC : HasCaller e = true) :
    fileValOf e ≠ "" := by
  have hcal : e.caller.isSome = true := by
    unfold HasCaller at hC
    exact (Bool.and_eq_true_iff.mp hC).2
  obtain ⟨c, hc⟩ := Option.isSome_iff_exists.mp hcal
  unfold fileValOf
  rw [if_pos hC, hc]
  intro hcontra
  have hlen := congrArg String.length hcontra
  rw [String.length_append, String.length_append] at hlen
  rw [show (":" : String).length = 1 from rfl, show ("" : String).length = 0 from rfl] at hlen
  omega

theorem formatPairs_value (fmtTime : Nat → String → String) (f : TextFormatter)
    (e : Entry) {p : String × Value} (hp : p ∈ formatPairs fmtTime f e) :
    p.2 = selectValue fmtTime f e p.1 := by
  unfold formatPairs at hp
  rcases List.mem_map.mp hp with ⟨k, hk, hpk⟩
  rw [← hpk]

/-- C1: after collision resolution the rendered key sequence holds each
reserved key exactly once whenever the formatter's own presence rule for
it fires (level always; time unless timestamps are disabled; message and
error when non-empty; func and file under an active caller with
non-empty values) and never more than once, the value rendered at a
reserved key is always the formatter-computed one, every user field
whose key equals a reserved key is preserved with its original value
under the renamed key formed by literally concatenating the prefix
`params` with the key, and the user keys func and file are renamed only
when caller reporting is active. -/
theorem claim1_collision_resolution (fmtTime : Nat → String → String)
    (f : TextFormatter) (e : Entry) :
    (List.count levelKey (formatKeys f e) = 1 ∧
     List.count timeKey (formatKeys f e) = (if f.disableTimestamp then 0 else 1) ∧
     List.count msgKey (formatKeys f e) = (if e.message = "" then 0 else 1) ∧
     List.count errKey (formatKeys f e) = (if e.err = "" then 0 else 1) ∧
     (HasCaller e = true →
       List.count funcKey (formatKeys f e) = (if funcValOf e = "" then 0 else 1) ∧
       List.count fileKey (formatKeys f e) = 1)) ∧
    (∀ p ∈ formatPairs fmtTime f e,
      (p.1 = timeKey → p.2 = .vStr (fmtTime e.time (tsFormatOf f))) ∧
      (p.1 = msgKey → p.2 = .vStr e.message) ∧
      (p.1 = levelKey → p.2 = .vStr (levelString e.level)) ∧
      (p.1 = errKey → p.2 = .vStr e.err) ∧
      (p.1 = funcKey → p.2 = .vStr (funcValOf e)) ∧
      (p.1 = fileKey → p.2 = .vStr (fileValOf e))) ∧
    (∀ k ∈ reservedKeys (HasCaller e), ∀ v : Value, getParam e.data k = some v →
      (paramsPref ++ k, v) ∈ formatPairs fmtTime f e) ∧
    (HasCaller e = false →
      getParam (fixParamsClash e.data (HasCaller e)) funcKey = getParam e.data funcKey ∧
      getParam (fixParamsClash e.data (HasCaller e)) fileKey = getParam e.data fileKey) := by
  refine ⟨⟨?_, ?_, ?_, ?_, ?_⟩, ?_, ?_, ?_⟩
  · unfold formatKeys
    simp only [List.count_append]
    rw [count_ite_singleton_ne (by decide : timeKey ≠ levelKey),
        count_ite_singleton_ne (by decide : msgKey ≠ levelKey),
        count_ite_singleton_ne (by decide : errKey ≠ levelKey),
        count_caller_part_ne e (by decide) (by decide),
        count_user_zero f e levelKey (fix_level_none _ _)]
    simp
  · unfold formatKeys
    simp only [List.count_append]
    rw [count_ite_singleton_self,
        count_ite_singleton_ne (by decide : msgKey ≠ timeKey),
        show List.count timeKey [levelKey] = 0 from by decide,
        count_ite_singleton_ne (by decide : errKey ≠ timeKey),
        count_caller_part_ne e (by decide) (by decide),
        count_user_zero f e timeKey (fix_time_none _ _)]
    simp
  · unfold formatKeys
    simp only [List.count_append]
    rw [count_ite_singleton_ne (by decide : timeKey ≠ msgKey),
        count_ite_singleton_self,
        show List.count msgKey [levelKey] = 0 from by decide,
        count_ite_singleton_ne (by decide : errKey ≠ msgKey),
        count_caller_part_ne e (by decide) (by decide),
        count_user_zero f e msgKey (fix_msg_none _ _)]
    simp
  · unfold formatKeys
    simp only [List.count_append]
    rw [count_ite_singleton_ne (by decide : timeKey ≠ errKey),
        count_ite_singleton_ne (by decide : msgKey ≠ errKey),
        show List.count errKey [levelKey] = 0 from by decide,
        count_ite_singleton_self,
        count_caller_part_ne e (by decide) (by decide),
        count_user_zero f e errKey (fix_err_none _ _)]
    simp
  · intro hC
    constructor
    · unfold formatKeys
      simp only [List.count_append]
      rw [count_ite_singleton_ne (by decide : timeKey ≠ funcKey),
          count_ite_singleton_ne (by decide : msgKey ≠ funcKey),
          show List.count funcKey [levelKey] = 0 from by decide,
          count_ite_singleton_ne (by decide : errKey ≠ funcKey),
          count_user_zero f e funcKey (by rw [hC]; exact fix_func_none _),
          if_pos hC, List.count_append, count_ite_singleton_self,
          count_ite_singleton_ne (by decide : fileKey ≠ funcKey)]
      simp
    · unfold formatKeys
      simp only [List.count_append]
      rw [count_ite_singleton_ne (by decide : timeKey ≠ fileKey),
          count_ite_singleton_ne (by decide : msgKey ≠ fileKey),
          show List.count fileKey [levelKey] = 0 from by decide,
          count_ite_singleton_ne (by decide : errKey ≠ fileKey),
          count_user_zero f e fileKey (by rw [hC]; exact fix_file_none _),
          if_pos hC, List.count_append,
          count_ite_singleton_ne (by decide : funcKey ≠ fileKey),
          count_ite_singleton_self,
          if_neg (fileValOf_ne_empty hC)]
  · intro p hp
    have hval := formatPairs_value fmtTime f e hp
    refine ⟨fun hkey => ?_, fun hkey => ?_, fun hkey => ?_, fun hkey => ?_,
            fun hkey => ?_, fun hkey => ?_⟩ <;> rw [hval, hkey]
    · unfold selectValue
      rw [if_pos rfl]
    · unfold selectValue
      rw [if_neg (by decide), if_pos rfl]
    · unfold selectValue
      rw [if_neg (by decide), if_neg (by decide), if_pos rfl]
    · unfold selectValue
      rw [if_neg (by decide), if_neg (by decide), if_neg (by decide), if_pos rfl]
    · unfold selectValue
      rw [if_neg (by decide), if_neg (by decide), if_neg (by decide),
          if_neg (by decide), if_pos rfl]
    · unfold selectValue
      rw [if_neg (by decide), if_neg (by decide), if_neg (by decide),
          if_neg (by decide), if_neg (by decide), if_pos rfl]
  · intro k hk v hv
    unfold reservedKeys at hk
    rcases List.mem_append.mp hk with hk4 | hkc
    · have hk4' : k = timeKey ∨ k = msgKey ∨ k = levelKey ∨ k = errKey := by
        simpa using hk4
      rcases hk4' with rfl | rfl | rfl | rfl
      · exact pair_mem_of_user_binding fmtTime f e (by decide) (by decide) (by decide)
          (by decide) (by decide) (by decide) (fix_time_moved _ _ _ hv)
      · exact pair_mem_of_user_binding fmtTime f e (by decide) (by decide) (by decide)
          (by decide) (by decide) (by decide) (fix_msg_moved _ _ _ hv)
      · exact pair_mem_of_user_binding fmtTime f e (by decide) (by decide) (by decide)
          (by decide) (by decide) (by decide) (fix_level_moved _ _ _ hv)
      · exact pair_mem_of_user_binding fmtTime f e (by decide) (by decide) (by decide)
          (by decide) (by decide) (by decide) (fix_err_moved _ _ _ hv)
    · by_cases hC : HasCaller e = true
      · rw [if_pos hC] at hkc
        have hkc' : k = funcKey ∨ k = fileKey := by
          simpa using hkc
        rcases hkc' with rfl | rfl
        · refine pair_mem_of_user_binding fmtTime f e (by decide) (by decide) (by decide)
            (by decide) (by decide) (by decide) ?_
          rw [hC]
          exact fix_func_moved _ _ hv
        · refine pair_mem_of_user_binding fmtTime f e (by decide) (by decide) (by decide)
            (by decide) (by decide) (by decide) ?_
          rw [hC]
          exact fix_file_moved _ _ hv
      · rw [if_neg hC] at hkc
        simp at hkc
  · intro hC
    rw [hC]
    exact ⟨fix_func_off e.data, fix_file_off e.data⟩

/-- Witness for C1 at a concrete entry whose user field collides with the
reserved `level` key. -/
theorem claim1_collision_resolution_witness :
    List.count levelKey (formatKeys lgFix.formatter entryClash) = 1 ∧
    (paramsPref ++ levelKey, Value.vStr "user") ∈
      formatPairs fmtTimeFix lgFix.formatter entryClash :=
  ⟨(claim1_collision_resolution fmtTimeFix lgFix.formatter entryClash).1.1,
   (claim1_collision_resolution fmtTimeFix lgFix.formatter entryClash).2.2.1 levelKey
     (by decide) (Value.vStr "user") (by decide)⟩

/-- C3: the text formatter renders the key list in the order time
(omitted when timestamps are disabled), message (omitted when empty),
level (always), error (omitted when the field-error string is empty),
func then file (only with a caller and non-empty value), then user keys
sorted lexicographically when sorting is enabled and in map-iteration
order when it is disabled; with sorting enabled, two entries whose field
maps hold the same bindings (in any order) render the same bytes. -/
theorem claim3_render_order (fmtTime : Nat → String → String) (f : TextFormatter)
    (e : Entry) (d2 : Params) :
    ((formatPairs fmtTime f e).map Prod.fst =
      (if f.disableTimestamp then [] else [timeKey]) ++
      (if e.message = "" then [] else [msgKey]) ++
      [levelKey] ++
      (if e.err = "" then [] else [errKey]) ++
      (if HasCaller e then
         (if funcValOf e = "" then [] else [funcKey]) ++
         (if fileValOf e = "" then [] else [fileKey])
       else []) ++
      (if f.disableSorting then (fixParamsClash e.data (HasCaller e)).map Prod.fst
       else sortStrings ((fixParamsClash e.data (HasCaller e)).map Prod.fst))) ∧
    (Format fmtTime f e = renderPairs (formatPairs fmtTime f e)) ∧
    (f.disableSorting = false → nodupKeys e.data → e.data.Perm d2 →
      Format fmtTime f e = Format fmtTime f { e with data := d2 }) := by
  refine ⟨formatPairs_keys fmtTime f e, rfl, ?_⟩
  intro hs hnd hperm
  have hns : ¬ (f.disableSorting = true) := by simp [hs]
  have hHC : HasCaller ({ e with data := d2 } : Entry) = HasCaller e := rfl
  have hfixperm : (fixParamsClash e.data (HasCaller e)).Perm
      (fixParamsClash d2 (HasCaller e)) := fixParamsClash_perm hperm hnd _
  have hndfix : nodupKeys (fixParamsClash e.data (HasCaller e)) :=
    nodupKeys_fixParamsClash hnd _
  have hsorted : sortStrings ((fixParamsClash d2 (HasCaller e)).map Prod.fst) =
      sortStrings ((fixParamsClash e.data (HasCaller e)).map Prod.fst) := by
    have hanti : IsAntisymm String (· ≤ ·) := ⟨fun _ _ => le_antisymm⟩
    exact @List.eq_of_perm_of_sorted String (· ≤ ·) hanti _ _
      (((List.perm_insertionSort _ _).trans (hfixperm.map Prod.fst).symm).trans
        (List.perm_insertionSort _ _).symm)
      (List.sorted_insertionSort _ _) (List.sorted_insertionSort _ _)
  have hget : ∀ k, getParam (fixParamsClash d2 (HasCaller e)) k =
      getParam (fixParamsClash e.data (HasCaller e)) k :=
    fun k => (getParam_congr_perm hfixperm hndfix k).symm
  have hFn : funcValOf ({ e with data := d2 } : Entry) = funcValOf e := rfl
  have hFi : fileValOf ({ e with data := d2 } : Entry) = fileValOf e := rfl
  have hkeys : formatKeys f ({ e with data := d2 } : Entry) = formatKeys f e := by
    unfold formatKeys
    dsimp only
    rw [hHC, hFn, hFi, if_neg hns, if_neg hns, hsorted]
  have hsel : ∀ k, selectValue fmtTime f ({ e with data := d2 } : Entry) k =
      selectValue fmtTime f e k := by
    intro k
    unfold selectValue
    dsimp only
    rw [hHC, hFn, hFi, hget k]
  have hpairs : formatPairs fmtTime f ({ e with data := d2 } : Entry) =
      formatPairs fmtTime f e := by
    unfold formatPairs
    rw [hkeys]
    exact List.map_congr_left (fun k _ => by rw [hsel k])
  unfold Format
  rw [hpairs]

/-- Witness for C3: the field maps `{b:1, a:2}` and `{a:2, b:1}` render
identical byte sequences with sorting enabled. -/
theorem claim3_render_order_witness :
    Format fmtTimeFix lgFix.formatter
      { entryNil with logger := some lgFix,
                      data := [("b", Value.vInt 1), ("a", Value.vInt 2)] } =
    Format fmtTimeFix lgFix.formatter
      { entryNil with logger := some lgFix,
                      data := [("a", Value.vInt 2), ("b", Value.vInt 1)] } :=
  (claim3_render_order fmtTimeFix lgFix.formatter
      { entryNil with logger := some lgFix,
                      data := [("b", Value.vInt 1), ("a", Value.vInt 2)] }
      [("a", Value.vInt 2), ("b", Value.vInt 1)]).2.2
    rfl (by unfold nodupKeys; decide) (by decide)

theorem entryLogf_eq_log : @Entry.Logf = @Entry.Log := rfl

theorem entryLogln_eq_log : @Entry.Logln = @Entry.Log := rfl

theorem entryLog_some (fmtTime : Nat → String → String) (now : Nat)
    (cres : Option Caller) (level : Level) (msg : String) (e : Entry) (lg : Logger)
    (h : e.logger = some lg) :
    Entry.Log fmtTime now cres level msg e =
      (if lg.level ≤ level then
         ⟨some (Format fmtTime lg.formatter
           (Entry.materialize now cres lg.reportCaller level msg e)), [], none⟩
       else ⟨none, [], none⟩) := by
  simp only [Entry.Log, Entry.logRun, IsLevelEnabled, h, decide_eq_true_eq]

theorem loggerLog_eq (fmtTime : Nat → String → String) (now : Nat)
    (cres : Option Caller) (lg : Logger) (level : Level) (msg : String) :
    Logger.Log fmtTime now cres lg level msg =
      (if lg.level ≤ level then
         ⟨some (Format fmtTime lg.formatter
           (Entry.materialize now cres lg.reportCaller level msg (NewEntry lg))), [], none⟩
       else ⟨none, [], none⟩) := by
  unfold Logger.Log
  rw [entryLog_some fmtTime now cres level msg (NewEntry lg) lg rfl]
  by_cases hle : lg.level ≤ level
  · rw [if_pos (show IsLevelEnabled lg level = true by
      simp [IsLevelEnabled, hle]), if_pos hle]
  · rw [if_neg (show ¬ IsLevelEnabled lg level = true by
      simp [IsLevelEnabled, hle]), if_neg hle]

theorem loggerLog_written_iff (fmtTime : Nat → String → String) (now : Nat)
    (cres : Option Caller) (lg : Logger) (level : Level) (msg : String) :
    (Logger.Log fmtTime now cres lg level msg).written.isSome ↔ lg.level ≤ level := by
  rw [loggerLog_eq]
  by_cases hle : lg.level ≤ level
  · simp [hle]
  · simp [hle]

theorem entryLog_written_iff (fmtTime : Nat → String → String) (now : Nat)
    (cres : Option Caller) (level : Level) (msg : String) (e : Entry) (lg : Logger)
    (h : e.logger = some lg) :
    (Entry.Log fmtTime now cres level msg e).written.isSome ↔ lg.level ≤ level := by
  rw [entryLog_some fmtTime now cres level msg e lg h]
  by_cases hle : lg.level ≤ level
  · simp [hle]
  · simp [hle]

/-- C4: each of the three argument styles at each severity on the Logger
(and Log/Logf/Logln on an attached Entry) emits a record iff the call
level is at least the configured minimum level; for L1 < L2, a minimum
of L2 suppresses an L1 call and permits an L2 call; a suppressed call
produces no sink write, no stderr output and no exit. -/
theorem claim4_level_gating (fmtTime : Nat → String → String) (now : Nat)
    (cres : Option Caller) (lg : Logger) (level : Level) (msg : String) :
    ((Logger.Log fmtTime now cres lg level msg).written.isSome ↔ lg.level ≤ level) ∧
    ((Logger.Logf fmtTime now cres lg level msg).written.isSome ↔ lg.level ≤ level) ∧
    ((Logger.Logln fmtTime now cres lg level msg).written.isSome ↔ lg.level ≤ level) ∧
    ((Logger.Debug fmtTime now cres lg msg).written.isSome ↔ lg.level ≤ DebugLevel) ∧
    ((Logger.Info fmtTime now cres lg msg).written.isSome ↔ lg.level ≤ InfoLevel) ∧
    ((Logger.Warn fmtTime now cres lg msg).written.isSome ↔ lg.level ≤ WarnLevel) ∧
    ((Logger.Error fmtTime now cres lg msg).written.isSome ↔ lg.level ≤ ErrorLevel) ∧
    ((Logger.Debugf fmtTime now cres lg msg).written.isSome ↔ lg.level ≤ DebugLevel) ∧
    ((Logger.Infof fmtTime now cres lg msg).written.isSome ↔ lg.level ≤ InfoLevel) ∧
    ((Logger.Warnf fmtTime now cres lg msg).written.isSome ↔ lg.level ≤ WarnLevel) ∧
    ((Logger.Errorf fmtTime now cres lg msg).written.isSome ↔ lg.level ≤ ErrorLevel) ∧
    ((Logger.Debugln fmtTime now cres lg msg).written.isSome ↔ lg.level ≤ DebugLevel) ∧
    ((Logger.Infoln fmtTime now cres lg msg).written.isSome ↔ lg.level ≤ InfoLevel) ∧
    ((Logger.Warnln fmtTime now cres lg msg).written.isSome ↔ lg.level ≤ WarnLevel) ∧
    ((Logger.Errorln fmtTime now cres lg msg).written.isSome ↔ lg.level ≤ ErrorLevel) ∧
    (¬ lg.level ≤ level →
      Logger.Log fmtTime now cres lg level msg = ⟨none, [], none⟩) ∧
    (∀ L1 L2 : Level, L1 < L2 →
      (Logger.Log fmtTime now cres { lg with level := L2 } L1 msg).written = none ∧
      (Logger.Log fmtTime now cres { lg with level := L2 } L2 msg).written.isSome) ∧
    (∀ e : Entry, e.logger = some lg →
      ((Entry.Log fmtTime now cres level msg e).written.isSome ↔ lg.level ≤ level) ∧
      ((Entry.Logf fmtTime now cres level msg e).written.isSome ↔ lg.level ≤ level) ∧
      ((Entry.Logln fmtTime now cres level msg e).written.isSome ↔ lg.level ≤ level)) := by
  refine ⟨loggerLog_written_iff fmtTime now cres lg level msg,
    loggerLog_written_iff fmtTime now cres lg level msg,
    loggerLog_written_iff fmtTime now cres lg level msg,
    loggerLog_written_iff fmtTime now cres lg DebugLevel msg,
    loggerLog_written_iff fmtTime now cres lg InfoLevel msg,
    loggerLog_written_iff fmtTime now cres lg WarnLevel msg,
    loggerLog_written_iff fmtTime now cres lg ErrorLevel msg,
    loggerLog_written_iff fmtTime now cres lg DebugLevel msg,
    loggerLog_written_iff fmtTime now cres lg InfoLevel msg,
    loggerLog_written_iff fmtTime now cres lg WarnLevel msg,
    loggerLog_written_iff fmtTime now cres lg ErrorLevel msg,
    loggerLog_written_iff fmtTime now cres lg DebugLevel msg,
    loggerLog_written_iff fmtTime now cres lg InfoLevel msg,
    loggerLog_written_iff fmtTime now cres lg WarnLevel msg,
    loggerLog_written_iff fmtTime now cres lg ErrorLevel msg,
    ?_, ?_, ?_⟩
  · intro hle
    rw [loggerLog_eq, if_neg hle]
  · intro L1 L2 hlt
    constructor
    · rw [loggerLog_eq]
      rw [if_neg (by simpa using Nat.not_le.mpr hlt)]
    · rw [loggerLog_eq]
      rw [if_pos (by simp)]
      rfl
  · intro e he
    exact ⟨entryLog_written_iff fmtTime now cres level msg e lg he,
      entryLog_written_iff fmtTime now cres level msg e lg he,
      entryLog_written_iff fmtTime now cres level msg e lg he⟩

/-- Witness for C4: with minimum level Error, a Debug call writes nothing
and an Error call writes a record. -/
theorem claim4_level_gating_witness :
    (Logger.Log fmtTimeFix 0 none { lgFix with level := ErrorLevel } DebugLevel "m").written
      = none ∧
    (Logger.Log fmtTimeFix 0 none { lgFix with level := ErrorLevel } ErrorLevel "m").written.isSome :=
  (claim4_level_gating fmtTimeFix 0 none lgFix ErrorLevel "m").2.2.2.2.2.2.2.2.2.2.2.2.2.2.2.2.1
    DebugLevel ErrorLevel (by decide)

/-- C5 counterexample: with the minimum level set to 6 (a representable
`Level`, above `FatalLevel`), `Logger.Fatal` writes nothing — the
emission is level-gated, contradicting the claim that a Fatal call
executes the emission regardless of the level gate — while the process
still exits with code 1. -/
theorem claim5_fatal_counterexample :
    (Logger.Fatal fmtTimeFix 0 none lgHigh "boom").written = none ∧
    (Logger.Fatal fmtTimeFix 0 none lgHigh "boom").exitCode = some 1 := by
  constructor
  · show ({ Logger.Log fmtTimeFix 0 none lgHigh FatalLevel "boom" with
      exitCode := some 1 } : Outcome).written = none
    rw [loggerLog_eq, if_neg (by decide)]
  · show ({ Logger.Log fmtTimeFix 0 none lgHigh FatalLevel "boom" with
      exitCode := some 1 } : Outcome).exitCode = some 1
    rfl

/-- C5 amended: every Fatal-style call (Logger.Fatal/Fatalf/Fatalln and
Entry.Fatal/Fatalf/Fatalln with an attached logger) requests process
termination with exit code 1 unconditionally, but the emission itself
passes through the same level gate as the other severities: the record
is written iff `FatalLevel` is at least the configured minimum level —
in particular it is always written whenever the minimum level is one of
the six defined levels (at most `FatalLevel`). -/
theorem claim5_fatal_amended (fmtTime : Nat → String → String) (now : Nat)
    (cres : Option Caller) (lg : Logger) (msg : String) (e : Entry) (lg' : Logger) :
    ((Logger.Fatal fmtTime now cres lg msg).exitCode = some 1) ∧
    ((Logger.Fatalf fmtTime now cres lg msg).exitCode = some 1) ∧
    ((Logger.Fatalln fmtTime now cres lg msg).exitCode = some 1) ∧
    ((Logger.Fatal fmtTime now cres lg msg).written.isSome ↔ lg.level ≤ FatalLevel) ∧
    ((Logger.Fatalf fmtTime now cres lg msg).written.isSome ↔ lg.level ≤ FatalLevel) ∧
    ((Logger.Fatalln fmtTime now cres lg msg).written.isSome ↔ lg.level ≤ FatalLevel) ∧
    (lg.level ≤ FatalLevel → (Logger.Fatal fmtTime now cres lg msg).written.isSome) ∧
    (e.logger = some lg' →
      (Entry.Fatal fmtTime now cres msg e).exitCode = some 1 ∧
      ((Entry.Fatal fmtTime now cres msg e).written.isSome ↔ lg'.level ≤ FatalLevel) ∧
      (Entry.Fatalf fmtTime now cres msg e).exitCode = some 1 ∧
      (Entry.Fatalln fmtTime now cres msg e).exitCode = some 1) := by
  have hwr : (Logger.Fatal fmtTime now cres lg msg).written.isSome ↔
      lg.level ≤ FatalLevel := by
    show ({ Logger.Log fmtTime now cres lg FatalLevel msg with
      exitCode := some 1 } : Outcome).written.isSome ↔ _
    exact loggerLog_written_iff fmtTime now cres lg FatalLevel msg
  refine ⟨rfl, rfl, rfl, hwr, hwr, hwr, fun h => hwr.mpr h, fun he => ?_⟩
  have hfatal : Entry.Fatal fmtTime now cres msg e =
      { Entry.Log fmtTime now cres FatalLevel msg e with exitCode := some 1 } := by
    unfold Entry.Fatal
    rw [he]
  have hwr' : (Entry.Fatal fmtTime now cres msg e).written.isSome ↔
      lg'.level ≤ FatalLevel := by
    rw [hfatal]
    show (Entry.Log fmtTime now cres FatalLevel msg e).written.isSome ↔ _
    exact entryLog_written_iff fmtTime now cres FatalLevel msg e lg' he
  have hfatalf : Entry.Fatalf fmtTime now cres msg e =
      { Entry.Logf fmtTime now cres FatalLevel msg e with exitCode := some 1 } := by
    unfold Entry.Fatalf
    rw [he]
  have hfatalln : Entry.Fatalln fmtTime now cres msg e =
      { Entry.Logln fmtTime now cres FatalLevel msg e with exitCode := some 1 } := by
    unfold Entry.Fatalln
    rw [he]
  exact ⟨by rw [hfatal], hwr', by rw [hfatalf], by rw [hfatalln]⟩

/-- Witness for the amended C5: with the default minimum level (Info) the
fatal record is written and exit code 1 is requested. -/
theorem claim5_fatal_amended_witness :
    (Logger.Fatal fmtTimeFix 0 none lgFix "boom").exitCode = some 1 ∧
    (Logger.Fatal fmtTimeFix 0 none lgFix "boom").written.isSome :=
  ⟨(claim5_fatal_amended fmtTimeFix 0 none lgFix "boom" entryNil lgFix).1,
   (claim5_fatal_amended fmtTimeFix 0 none lgFix "boom" entryNil lgFix).2.2.2.2.2.2.1
     (by decide)⟩

/-- C9: at emission the entry's timestamp is replaced by the current time
exactly when it holds the zero time value; a time set through `WithTime`
survives emission iff it is non-zero, and `WithTime` with the zero
timestamp is the same entry as one whose time was never set. -/
theorem claim9_time_materialization (now : Nat) (cres : Option Caller) (rc : Bool)
    (l : Level) (msg : String) (e : Entry) (t : Nat) :
    ((Entry.materialize now cres rc l msg e).time =
      (if e.time = 0 then now else e.time)) ∧
    ((Entry.WithTime e t).time = t) ∧
    (t ≠ 0 → (Entry.materialize now cres rc l msg (Entry.WithTime e t)).time = t) ∧
    ((Entry.materialize now cres rc l msg (Entry.WithTime e 0)).time = now) ∧
    (Entry.WithTime e 0 = { e with time := 0 }) := by
  refine ⟨rfl, rfl, ?_, ?_, rfl⟩
  · intro ht
    simp [Entry.materialize, Entry.WithTime, ht]
  · simp [Entry.materialize, Entry.WithTime]

/-- Witness for C9: a non-zero override (7) survives materialization. -/
theorem claim9_time_materialization_witness :
    (Entry.materialize 3 none false InfoLevel "m" (Entry.WithTime entryNil 7)).time = 7 :=
  (claim9_time_materialization 3 none false InfoLevel "m" entryNil 7).2.2.1 (by decide)

/-- C10: on an entry with no attached logger, every logging call prints
the `Logger not attached` diagnostic to standard error and returns
normally: nothing reaches the sink, no exit is requested (the Fatal
variants print the diagnostic twice and do not exit), and the entry is
untouched — the embedded calls are pure functions of the entry. -/
theorem claim10_nil_logger (fmtTime : Nat → String → String) (now : Nat)
    (cres : Option Caller) (level : Level) (msg : String) (e : Entry)
    (h : e.logger = none) :
    Entry.Log fmtTime now cres level msg e = ⟨none, ["Logger not attached"], none⟩ ∧
    Entry.Logf fmtTime now cres level msg e = ⟨none, ["Logger not attached"], none⟩ ∧
    Entry.Logln fmtTime now cres level msg e = ⟨none, ["Logger not attached"], none⟩ ∧
    Entry.Debug fmtTime now cres msg e = ⟨none, ["Logger not attached"], none⟩ ∧
    Entry.Info fmtTime now cres msg e = ⟨none, ["Logger not attached"], none⟩ ∧
    Entry.Warn fmtTime now cres msg e = ⟨none, ["Logger not attached"], none⟩ ∧
    Entry.Error fmtTime now cres msg e = ⟨none, ["Logger not attached"], none⟩ ∧
    Entry.Debugf fmtTime now cres msg e = ⟨none, ["Logger not attached"], none⟩ ∧
    Entry.Infof fmtTime now cres msg e = ⟨none, ["Logger not attached"], none⟩ ∧
    Entry.Warnf fmtTime now cres msg e = ⟨none, ["Logger not attached"], none⟩ ∧
    Entry.Errorf fmtTime now cres msg e = ⟨none, ["Logger not attached"], none⟩ ∧
    Entry.Debugln fmtTime now cres msg e = ⟨none, ["Logger not attached"], none⟩ ∧
    Entry.Infoln fmtTime now cres msg e = ⟨none, ["Logger not attached"], none⟩ ∧
    Entry.Warnln fmtTime now cres msg e = ⟨none, ["Logger not attached"], none⟩ ∧
    Entry.Errorln fmtTime now cres msg e = ⟨none, ["Logger not attached"], none⟩ ∧
    Entry.Fatal fmtTime now cres msg e =
      ⟨none, ["Logger not attached", "Logger not attached"], none⟩ ∧
    Entry.Fatalf fmtTime now cres msg e =
      ⟨none, ["Logger not attached", "Logger not attached"], none⟩ ∧
    Entry.Fatalln fmtTime now cres msg e =
      ⟨none, ["Logger not attached", "Logger not attached"], none⟩ := by
  have hL : ∀ lv m, Entry.Log fmtTime now cres lv m e =
      ⟨none, ["Logger not attached"], none⟩ := by
    intro lv m
    unfold Entry.Log
    rw [h]
  have hFat : Entry.Fatal fmtTime now cres msg e =
      ⟨none, ["Logger not attached", "Logger not attached"], none⟩ := by
    unfold Entry.Fatal
    rw [h, hL]
    rfl
  refine ⟨hL level msg, hL level msg, hL level msg,
    hL DebugLevel msg, hL InfoLevel msg, hL WarnLevel msg, hL ErrorLevel msg,
    hL DebugLevel msg, hL InfoLevel msg, hL WarnLevel msg, hL ErrorLevel msg,
    hL DebugLevel msg, hL InfoLevel msg, hL WarnLevel msg, hL ErrorLevel msg,
    hFat, ?_, ?_⟩
  · unfold Entry.Fatalf
    rw [h, show @Entry.Logf = @Entry.Log from rfl, hL]
    rfl
  · unfold Entry.Fatalln
    rw [h, show @Entry.Logln = @Entry.Log from rfl, hL]
    rfl

/-- Witness for C10 at the concrete detached entry. -/
theorem claim10_nil_logger_witness :
    Entry.Log fmtTimeFix 0 none InfoLevel "x" entryNil =
      ⟨none, ["Logger not attached"], none⟩ ∧
    Entry.Fatal fmtTimeFix 0 none "x" entryNil =
      ⟨none, ["Logger not attached", "Logger not attached"], none⟩ :=
  ⟨(claim10_nil_logger fmtTimeFix 0 none InfoLevel "x" entryNil rfl).1,
   (claim10_nil_logger fmtTimeFix 0 none InfoLevel "x" entryNil rfl).2.2.2.2.2.2.2.2.2.2.2.2.2.2.2.1⟩

theorem withParams_fold_split (e0 : String) (P : Params) :
    ∀ (d : Params) (a : String),
      P.foldl (fun (acc : Params × String) kv =>
        if isErrField kv.2 then
          (acc.1, if acc.2 = "" then rejectText kv.1 else e0 ++ ", " ++ rejectText kv.1)
        else (setParam acc.1 kv.1 kv.2, acc.2)) (d, a) =
      (mergeParams d P, errRun e0 a P) := by
  induction P with
  | nil => intro d a; rfl
  | cons kv rest ih =>
      intro d a
      rw [List.foldl_cons]
      show rest.foldl _
        (if isErrField kv.2 then
          (d, if a = "" then rejectText kv.1 else e0 ++ ", " ++ rejectText kv.1)
         else (setParam d kv.1 kv.2, a)) = _
      by_cases hkv : isErrField kv.2
      · rw [if_pos hkv, ih]
        unfold mergeParams errRun
        rw [List.foldl_cons, List.foldl_cons]
        show (_, _) = (rest.foldl _ (if isErrField kv.2 then d else _),
          rest.foldl _ (if isErrField kv.2 then
            (if a = "" then rejectText kv.1 else e0 ++ ", " ++ rejectText kv.1) else a))
        rw [if_pos hkv, if_pos hkv]
      · rw [if_neg hkv, ih]
        unfold mergeParams errRun
        rw [List.foldl_cons, List.foldl_cons]
        show (_, _) = (rest.foldl _ (if isErrField kv.2 then d else setParam d kv.1 kv.2),
          rest.foldl _ (if isErrField kv.2 then
            (if a = "" then rejectText kv.1 else e0 ++ ", " ++ rejectText kv.1) else a))
        rw [if_neg hkv, if_neg hkv]

theorem withParams_eq (e : Entry) (P : Params) :
    Entry.WithParams e P =
      { e with data := mergeParams e.data P, err := errRun e.err e.err P } := by
  show ({ e with
    data := (P.foldl _ (e.data, e.err)).1,
    err := (P.foldl _ (e.data, e.err)).2 } : Entry) = _
  rw [withParams_fold_split e.err P e.data e.err]

theorem mergeParams_append (d : Params) (P1 P2 : Params) :
    mergeParams d (P1 ++ P2) = mergeParams (mergeParams d P1) P2 := by
  unfold mergeParams
  rw [List.foldl_append]

theorem funcFree_cons_err {kv : String × Value} {rest : Params}
    (hkv : isErrField kv.2 = true) : funcFree (kv :: rest) = funcFree rest := by
  simp [funcFree, hkv]

theorem funcFree_cons_ok {kv : String × Value} {rest : Params}
    (hkv : isErrField kv.2 = false) : funcFree (kv :: rest) = kv :: funcFree rest := by
  simp [funcFree, hkv]

theorem rejectedKeys_cons_err {kv : String × Value} {rest : Params}
    (hkv : isErrField kv.2 = true) :
    rejectedKeys (kv :: rest) = kv.1 :: rejectedKeys rest := by
  simp [rejectedKeys, hkv]

theorem rejectedKeys_cons_ok {kv : String × Value} {rest : Params}
    (hkv : isErrField kv.2 = false) : rejectedKeys (kv :: rest) = rejectedKeys rest := by
  simp [rejectedKeys, hkv]

theorem mergeParams_eq_specUnion (d : Params) (P : Params) :
    mergeParams d P = specUnion d (funcFree P) := by
  induction P generalizing d with
  | nil => rfl
  | cons kv rest ih =>
      by_cases hkv : isErrField kv.2
      · rw [funcFree_cons_err hkv]
        show mergeParams (if isErrField kv.2 then d else _) rest = _
        rw [if_pos hkv, ih]
      · rw [funcFree_cons_ok (by simpa using hkv)]
        show mergeParams (if isErrField kv.2 then d else setParam d kv.1 kv.2) rest = _
        rw [if_neg hkv, ih]
        rfl

theorem errRun_cons_err {kv : String × Value} (e0 a : String) {rest : Params}
    (hkv : isErrField kv.2 = true) :
    errRun e0 a (kv :: rest) =
      errRun e0 (if a = "" then rejectText kv.1 else e0 ++ ", " ++ rejectText kv.1) rest := by
  unfold errRun
  rw [List.foldl_cons]
  show rest.foldl _ (if isErrField kv.2 then _ else a) = _
  rw [if_pos hkv]

theorem errRun_cons_ok {kv : String × Value} (e0 a : String) {rest : Params}
    (hkv : isErrField kv.2 = false) : errRun e0 a (kv :: rest) = errRun e0 a rest := by
  unfold errRun
  rw [List.foldl_cons]
  show rest.foldl _ (if isErrField kv.2 then _ else a) = _
  rw [if_neg (by simp [hkv])]

theorem errRun_no_reject (e0 : String) (P : Params)
    (h : ∀ kv ∈ P, isErrField kv.2 = false) : ∀ a, errRun e0 a P = a := by
  induction P with
  | nil => intro a; rfl
  | cons kv rest ih =>
      intro a
      rw [errRun_cons_ok e0 a (h kv (List.mem_cons_self _ _)),
        ih (fun p hp => h p (List.mem_cons_of_mem _ hp)) a]

theorem rejectText_ne_empty (k : String) : rejectText k ≠ "" := by
  intro hc
  have hlen := congrArg String.length hc
  rw [rejectText, String.length_append,
    show ("can not add field " : String).length = 18 from rfl,
    show ("" : String).length = 0 from rfl] at hlen
  omega

theorem err_append_ne_empty (e0 s : String) : e0 ++ ", " ++ s ≠ "" := by
  intro hc
  have hlen := congrArg String.length hc
  rw [String.length_append, String.length_append,
    show (", " : String).length = 2 from rfl,
    show ("" : String).length = 0 from rfl] at hlen
  omega

theorem errRun_none (e0 : String) (P : Params) (h : rejectedKeys P = []) :
    ∀ a, errRun e0 a P = a := by
  induction P with
  | nil => intro a; rfl
  | cons kv rest ih =>
      by_cases hkv : isErrField kv.2
      · rw [rejectedKeys_cons_err hkv] at h
        cases h
      · intro a
        rw [rejectedKeys_cons_ok (by simpa using hkv)] at h
        rw [errRun_cons_ok e0 a (by simpa using hkv), ih h a]

theorem errRun_last_of_ne (e0 : String) (P : Params) (k : String) :
    ∀ a, a ≠ "" → (rejectedKeys P).getLast? = some k →
      errRun e0 a P = e0 ++ ", " ++ rejectText k := by
  induction P with
  | nil => intro a _ hlast; cases hlast
  | cons kv rest ih =>
      intro a ha hlast
      by_cases hkv : isErrField kv.2
      · rw [rejectedKeys_cons_err hkv] at hlast
        rw [errRun_cons_err e0 a hkv, if_neg ha]
        cases hr : rejectedKeys rest with
        | nil =>
            rw [hr] at hlast
            have hk : kv.1 = k := by
              simpa using hlast
            rw [errRun_none e0 rest hr, hk]
        | cons x xs =>
            rw [hr, List.getLast?_cons_cons] at hlast
            rw [← hr] at hlast
            exact ih _ (err_append_ne_empty e0 _) hlast
      · rw [rejectedKeys_cons_ok (by simpa using hkv)] at hlast
        rw [errRun_cons_ok e0 a (by simpa using hkv)]
        exact ih a ha hlast

theorem errRun_single_of_empty (e0 : String) (P : Params) (k : String)
    (h : rejectedKeys P = [k]) : errRun e0 "" P = rejectText k := by
  induction P with
  | nil => cases h
  | cons kv rest ih =>
      by_cases hkv : isErrField kv.2
      · rw [rejectedKeys_cons_err hkv] at h
        have hk : kv.1 = k ∧ rejectedKeys rest = [] := by
          constructor
          · exact (List.cons_eq_cons.mp h).1
          · exact (List.cons_eq_cons.mp h).2
        rw [errRun_cons_err e0 "" hkv, if_pos rfl, errRun_none e0 rest hk.2, hk.1]
      · rw [rejectedKeys_cons_ok (by simpa using hkv)] at h
        rw [errRun_cons_ok e0 "" (by simpa using hkv)]
        exact ih h

theorem errRun_multi_of_empty (e0 : String) (P : Params) (k : String) :
    (rejectedKeys P).getLast? = some k → 2 ≤ (rejectedKeys P).length →
      errRun e0 "" P = e0 ++ ", " ++ rejectText k := by
  induction P with
  | nil => intro hlast _; cases hlast
  | cons kv rest ih =>
      intro hlast hlen
      by_cases hkv : isErrField kv.2
      · rw [rejectedKeys_cons_err hkv] at hlast hlen
        cases hr : rejectedKeys rest with
        | nil =>
            rw [hr] at hlen
            simp at hlen
        | cons x xs =>
            rw [hr, List.getLast?_cons_cons] at hlast
            rw [← hr] at hlast
            rw [errRun_cons_err e0 "" hkv, if_pos rfl]
            exact errRun_last_of_ne e0 rest k _ (rejectText_ne_empty kv.1) hlast
      · rw [rejectedKeys_cons_ok (by simpa using hkv)] at hlast hlen
        rw [errRun_cons_ok e0 "" (by simpa using hkv)]
        exact ih hlast hlen

theorem getParam_append (l1 l2 : Params) (k : String) :
    getParam (l1 ++ l2) k =
      (match getParam l1 k with
       | some v => some v
       | none => getParam l2 k) := by
  induction l1 with
  | nil => rfl
  | cons p rest ih =>
      obtain ⟨k', v⟩ := p
      by_cases h : k' = k
      · simp [getParam, h]
      · simp [getParam, h, ih]

theorem getParam_specUnion (d Q : Params) (k : String) :
    getParam (specUnion d Q) k =
      (match getParam Q.reverse k with
       | some w => some w
       | none => getParam d k) := by
  induction Q generalizing d with
  | nil => rfl
  | cons q rest ih =>
      show getParam (specUnion (setParam d q.1 q.2) rest) k = _
      rw [ih (setParam d q.1 q.2), List.reverse_cons, getParam_append]
      cases hq : getParam rest.reverse k with
      | some w => rfl
      | none =>
          by_cases hk : q.1 = k
          · subst hk
            show getParam (setParam d q.1 q.2) q.1 =
              (match getParam [(q.1, q.2)] q.1 with
               | some w => some w
               | none => getParam d q.1)
            rw [getParam_setParam_self]
            simp [getParam]
          · show getParam (setParam d q.1 q.2) k =
              (match getParam [(q.1, q.2)] k with
               | some w => some w
               | none => getParam d k)
            rw [getParam_setParam_ne _ _ _ _ (fun hc => hk hc.symm)]
            simp [getParam, hk]

/-- C6 counterexample: the claim says the derived entry's field map
equals the union of the receiver's fields and the supplied map for every
params map; supplying a function-typed value refutes it — the key is
rejected and absent from the result, while the union holds it. -/
theorem claim6_with_params_counterexample :
    getParam (Entry.WithParams entryNil [("k", Value.vFunc)]).data "k" = none ∧
    getParam (specUnion entryNil.data [("k", Value.vFunc)]) "k" = some Value.vFunc := by
  constructor
  · decide
  · decide

/-- C6 amended: `WithParam`/`WithParams`/`WithError` return a new entry
whose field map is the union of the receiver's fields and the
serializable (non-function) part of the supplied map, with the supplied
bindings winning on shared keys (last binding first); the receiver is
never changed (every derivation is a pure function of it); and over
function-free maps, derivation composed over two maps equals derivation
over their concatenation. -/
theorem claim6_with_params_amended (e : Entry) (P P1 P2 : Params) (k : String)
    (v : Value) :
    ((Entry.WithParams e P).data = specUnion e.data (funcFree P)) ∧
    ((Entry.WithParam e k v).data =
      (if isErrField v then e.data else setParam e.data k v)) ∧
    ((Entry.WithError e v).data =
      (if isErrField v then e.data else setParam e.data errKey v)) ∧
    ((∀ kv ∈ P, isErrField kv.2 = false) → (Entry.WithParams e P).err = e.err) ∧
    (∀ k', getParam (Entry.WithParams e P).data k' =
      (match getParam (funcFree P).reverse k' with
       | some w => some w
       | none => getParam e.data k')) ∧
    ((∀ kv ∈ P1, isErrField kv.2 = false) → (∀ kv ∈ P2, isErrField kv.2 = false) →
      Entry.WithParams (Entry.WithParams e P1) P2 = Entry.WithParams e (P1 ++ P2)) := by
  refine ⟨?_, ?_, ?_, ?_, ?_, ?_⟩
  · rw [withParams_eq]
    exact mergeParams_eq_specUnion e.data P
  · rw [Entry.WithParam, withParams_eq]
    show mergeParams e.data [(k, v)] = _
    unfold mergeParams
    rw [List.foldl_cons]
    by_cases hv : isErrField v
    · rw [if_pos hv]
      rfl
    · rw [if_neg hv]
      rfl
  · rw [Entry.WithError, Entry.WithParam, withParams_eq]
    show mergeParams e.data [(errKey, v)] = _
    unfold mergeParams
    rw [List.foldl_cons]
    by_cases hv : isErrField v
    · rw [if_pos hv]
      rfl
    · rw [if_neg hv]
      rfl
  · intro h
    rw [withParams_eq]
    exact errRun_no_reject e.err P h e.err
  · intro k'
    rw [withParams_eq]
    show getParam (mergeParams e.data P) k' = _
    rw [mergeParams_eq_specUnion, getParam_specUnion]
  · intro h1 h2
    have hinner : Entry.WithParams e P1 =
        { e with data := mergeParams e.data P1, err := e.err } := by
      rw [withParams_eq, errRun_no_reject e.err P1 h1 e.err]
    have hboth : ∀ kv ∈ P1 ++ P2, isErrField kv.2 = false := by
      intro kv hkv
      rcases List.mem_append.mp hkv with h | h
      · exact h1 kv h
      · exact h2 kv h
    rw [hinner, withParams_eq, withParams_eq, errRun_no_reject _ P2 h2,
      errRun_no_reject e.err (P1 ++ P2) hboth, mergeParams_append]

/-- Witness for the amended C6 at concrete function-free maps: the data
union characterization and the composition law. -/
theorem claim6_with_params_amended_witness :
    (Entry.WithParams entryNil [("a", Value.vStr "1")]).data =
      specUnion entryNil.data (funcFree [("a", Value.vStr "1")]) ∧
    Entry.WithParams (Entry.WithParams entryNil [("a", Value.vStr "1")])
        [("b", Value.vStr "2")] =
      Entry.WithParams entryNil
        ([("a", Value.vStr "1")] ++ [("b", Value.vStr "2")]) :=
  ⟨(claim6_with_params_amended entryNil [("a", Value.vStr "1")] [] [] "a"
      (Value.vStr "1")).1,
   (claim6_with_params_amended entryNil [] [("a", Value.vStr "1")]
      [("b", Value.vStr "2")] "a" (Value.vStr "1")).2.2.2.2.2
      (by decide) (by decide)⟩

/-- C7 counterexample: the diagnostic literal in the source is
`can not add field %q`, not `cannot add field %q`; and when two fields
are rejected in one call the second diagnostic overwrites the first
(appending to the receiver's original error string, which is empty
here), leaving a single diagnostic with a stray leading comma rather
than the two comma-joined diagnostics the claim describes. -/
theorem claim7_reject_diag_counterexample :
    (Entry.WithParams entryNil [("k", Value.vFunc)]).err = "can not add field \"k\"" ∧
    "can not add field \"k\"" ≠ "cannot add field \"k\"" ∧
    (Entry.WithParams entryNil [("a", Value.vFunc), ("b", Value.vFunc)]).err =
      ", can not add field \"b\"" := by
  refine ⟨by decide, by decide, by decide⟩

/-- C7 amended: a function-typed field is rejected by the merge — it is
not added to the new entry's field map — and the diagnostic
`can not add field %q` (with the key substituted) is recorded in the
field-error string as follows: with no rejection the error is unchanged;
with the receiver's error empty and exactly one rejection the error is
that diagnostic; otherwise the error is the receiver's original error
string, a comma-space separator, and the diagnostic of the LAST rejected
key only (earlier rejections from the same call are overwritten, and an
empty receiver error leaves a leading comma-space). -/
theorem claim7_function_field_rejection (e : Entry) (P : Params) (k : String) :
    (∀ k', getParam (funcFree P).reverse k' = none → getParam e.data k' = none →
      getParam (Entry.WithParams e P).data k' = none) ∧
    (rejectedKeys P = [] → (Entry.WithParams e P).err = e.err) ∧
    (∀ k', rejectedKeys P = [k'] → e.err = "" →
      (Entry.WithParams e P).err = rejectText k') ∧
    (∀ k', (rejectedKeys P).getLast? = some k' → e.err ≠ "" →
      (Entry.WithParams e P).err = e.err ++ ", " ++ rejectText k') ∧
    (∀ k', (rejectedKeys P).getLast? = some k' → 2 ≤ (rejectedKeys P).length →
      e.err = "" → (Entry.WithParams e P).err = e.err ++ ", " ++ rejectText k') ∧
    (rejectText k = "can not add field " ++ goQuote k) := by
  refine ⟨?_, ?_, ?_, ?_, ?_, rfl⟩
  · intro k' hmiss hbase
    rw [withParams_eq]
    show getParam (mergeParams e.data P) k' = none
    rw [mergeParams_eq_specUnion, getParam_specUnion, hmiss]
    exact hbase
  · intro h
    rw [withParams_eq]
    exact errRun_none e.err P h e.err
  · intro k' h herr
    rw [withParams_eq]
    show errRun e.err e.err P = _
    rw [herr]
    exact errRun_single_of_empty "" P k' h
  · intro k' hlast herr
    rw [withParams_eq]
    exact errRun_last_of_ne e.err P k' e.err herr hlast
  · intro k' hlast hlen herr
    rw [withParams_eq]
    show errRun e.err e.err P = _
    rw [herr]
    exact errRun_multi_of_empty "" P k' hlast hlen

/-- Witness for the amended C7: one rejected function field on a fresh
entry yields exactly the source's diagnostic, and the field is absent. -/
theorem claim7_function_field_rejection_witness :
    getParam (Entry.WithParams entryNil [("k", Value.vFunc)]).data "k" = none ∧
    (Entry.WithParams entryNil [("k", Value.vFunc)]).err = rejectText "k" :=
  ⟨(claim7_function_field_rejection entryNil [("k", Value.vFunc)] "k").1 "k"
      (by decide) (by decide),
   (claim7_function_field_rejection entryNil [("k", Value.vFunc)] "k").2.2.1 "k"
      (by decide) rfl⟩

end Rogger
